import Mathlib

set_option maxHeartbeats 1000000
set_option maxRecDepth 100000

/- Shallow embedding of the OpenVoiceUI conversation pipeline
   (routes/conversation.py, services/tts.py, services/gateway_manager.py,
   services/speech_normalizer.py).  Text is modelled as `List Char`, byte
   strings as `List Nat`.  Python regular expressions used by the code are
   translated into explicit character-level scanners, faithful on the ASCII
   range the pipeline manipulates. -/

/-- The backtick character, used by the code-fence scanners. -/
def backtickChar : Char := Char.ofNat 96

/-- Python whitespace class on the ASCII range (re `\s`, `str.strip`). -/
def isPySpace (c : Char) : Bool :=
  c = ' ' || c = '\t' || c = '\n' || c = '\r' || c = '\x0b' || c = '\x0c'

/-- Python `str.lstrip()`. -/
def plstrip (l : List Char) : List Char := l.dropWhile isPySpace

/-- Python `str.rstrip()`. -/
def prstrip (l : List Char) : List Char := (l.reverse.dropWhile isPySpace).reverse

/-- Python `str.strip()`. -/
def pstrip (l : List Char) : List Char := prstrip (plstrip l)

/-- Python `str.upper()` restricted to ASCII. -/
def pupper (l : List Char) : List Char := l.map Char.toUpper

/-- Count occurrences of one character (`str.count` with a length-1 needle). -/
def countChar (c : Char) (l : List Char) : Nat := l.countP (· = c)

/-- Non-overlapping count of the three-backtick fence marker
    (`text.count("```")` in `_has_open_tag`): count and skip three on a
    match, else advance one character. -/
def countTripleTick : List Char → Nat
  | c :: b :: d :: rest =>
    if c = backtickChar ∧ b = backtickChar ∧ d = backtickChar then
      1 + countTripleTick rest
    else countTripleTick (b :: d :: rest)
  | _ => 0

/-- Python `needle in s` substring test. -/
def hasSub (needle : List Char) : List Char → Bool
  | [] => decide (needle = [])
  | c :: rest => needle.isPrefixOf (c :: rest) || hasSub needle rest

/-- Python `s.replace(needle, repl)`: left-to-right non-overlapping.  The
    fuel argument (initialised to the length, consumed at least one
    character per step) makes the recursion structural. -/
def replaceSubAux (needle repl : List Char) : Nat → List Char → List Char
  | _, [] => []
  | 0, l => l
  | fuel + 1, c :: rest =>
    if needle ≠ [] ∧ needle.isPrefixOf (c :: rest) = true then
      repl ++ replaceSubAux needle repl fuel ((c :: rest).drop needle.length)
    else
      c :: replaceSubAux needle repl fuel rest

def replaceSub (needle repl : List Char) (l : List Char) : List Char :=
  replaceSubAux needle repl l.length l

/-- Python `s.rfind(c)` for a single-character needle: highest index, `-1`
    when absent. -/
def pyRfind (c : Char) (l : List Char) : Int :=
  match l.reverse.findIdx? (· = c) with
  | some j => ((l.length - 1 - j : Nat) : Int)
  | none => -1

/- ------------------------------------------------------------------ -/
/- routes/conversation.py `_truncate_at_sentence`                      -/
/- ------------------------------------------------------------------ -/

/-- `_truncate_at_sentence(text, max_chars)`: truncate at the last `.` / `!`
    / `?` inside the first `max_chars` characters if its index is positive,
    falling back to a hard stripped cut. -/
def _truncate_at_sentence (text : List Char) (max_chars : Nat) : List Char :=
  if text = [] ∨ text.length ≤ max_chars then text
  else
    let chunk := text.take max_chars
    let last_boundary :=
      max (max (pyRfind '.' chunk) (pyRfind '!' chunk)) (pyRfind '?' chunk)
    if last_boundary > 0 then pstrip (chunk.take (last_boundary.toNat + 1))
    else pstrip chunk

/- ------------------------------------------------------------------ -/
/- routes/conversation.py `stream_response` helpers                    -/
/- ------------------------------------------------------------------ -/

/-- `_has_open_tag(text)`: unbalanced `[` versus `]`, or an odd number of
    triple-backtick fence markers. -/
def _has_open_tag (text : List Char) : Bool :=
  if countChar '[' text > countChar ']' text then true
  else if countTripleTick text % 2 ≠ 0 then true
  else false

/-- Scanner behind `_extract_sentence`: the regex iteration over
    `[.!?](?= |\Z)` keeping the first match whose end is at least
    `min_len`.  The second argument is the absolute index of the head of
    the remaining list; the result is the absolute end index of the match. -/
def findBoundary (min_len : Nat) : List Char → Nat → Option Nat
  | [], _ => none
  | c :: rest, i =>
    if (c = '.' ∨ c = '!' ∨ c = '?') ∧ (rest = [] ∨ rest.head? = some ' ') ∧
        min_len ≤ i + 1 then
      some (i + 1)
    else findBoundary min_len rest (i + 1)

/-- `_extract_sentence(text, min_len=40)`: `(sentence stripped, remainder
    left-stripped)` at the first qualifying boundary, or `(None, text)`. -/
def _extract_sentence (text : List Char) (min_len : Nat := 40) :
    Option (List Char) × List Char :=
  if text.length < min_len then (none, text)
  else
    match findBoundary min_len text 0 with
    | some e => (some (pstrip (text.take e)), plstrip (text.drop e))
    | none => (none, text)

/- ------------------------------------------------------------------ -/
/- routes/conversation.py `stream_response`: the streaming machine     -/
/- ------------------------------------------------------------------ -/

/-- Result record filled in by a `_fire_tts` worker: the base64 audio
    string, or the stringified exception.  A worker that has not finished
    by the time its result is read leaves both fields unset. -/
structure TTSResult where
  audio : Option (List Char)
  err : Option (List Char)
deriving DecidableEq

/-- Shape of the `total_chunks` JSON field of an `audio` client event:
    flushed-on-action events carry an explicit `null`, drain-phase events
    an integer, and the agent-file-path passthrough event omits the key. -/
inductive TotalField where
  | absent
  | null
  | val (n : Nat)
deriving DecidableEq

/-- Client-facing NDJSON events produced by `stream_response`.  Fields not
    constrained by any claim (timing, audio format, actions payload of
    `text_done`) are elided; `session_reset` keys are identified by their
    counter value. -/
inductive ClientEvent where
  | delta (text : List Char)
  | action (a : Nat)
  | audio (payload : List Char) (chunk : Nat) (total : TotalField)
  | tts_error
  | text_done (response : Option (List Char))
  | session_reset (old new : Nat) (reason : List Char)
  | no_audio
  | error (msg : List Char)
deriving DecidableEq

/-- Events arriving on the gateway event queue. -/
inductive GwEvent where
  | handshake (ms : Nat)
  | delta (text : List Char)
  | action (a : Nat)
  | text_done (response : Option (List Char))
  | error (msg : List Char)
deriving DecidableEq

/-- Per-request environment of `stream_response`.  The TTS workers and the
    text cleaner are external dependencies of the orchestrator: `tts i` is
    the result record of the i-th fired worker, `isDone i t` tells whether
    that worker has completed when the t-th `action` event arrives,
    `clean` is `clean_for_tts`, and `fileBytes` models reading an agent
    audio file (`none` is a read failure). -/
structure StreamCtx where
  userMessage : List Char
  maxResponseChars : Option Nat
  tts : Nat → TTSResult
  isDone : Nat → Nat → Bool
  clean : List Char → List Char
  fileBytes : List Char → Option (List Nat)

/-- Mutable state of one streaming request plus the module-level globals
    (`_consecutive_empty_responses` and the voice session counter) that
    survive across requests. -/
structure StreamState where
  buf : List Char
  pending : List Nat
  chunksSent : Nat
  nextTask : Nat
  actionCount : Nat
  consecutiveEmpty : Nat
  sessionCounter : Nat
deriving DecidableEq

/-- Base64 alphabet. -/
def b64Alphabet : List Char :=
  "ABCDEFGHIJKLMNOPQRSTUVWXYZabcdefghijklmnopqrstuvwxyz0123456789+/".toList

/-- `base64.b64encode` on a byte list. -/
def b64encode : List Nat → List Char
  | [] => []
  | [a] =>
    let a := a % 256
    [b64Alphabet.getD (a / 4) '=', b64Alphabet.getD (a % 4 * 16) '=', '=', '=']
  | [a, b] =>
    let a := a % 256
    let b := b % 256
    [b64Alphabet.getD (a / 4) '=', b64Alphabet.getD (a % 4 * 16 + b / 16) '=',
     b64Alphabet.getD (b % 16 * 4) '=', '=']
  | a :: b :: c :: rest =>
    let a := a % 256
    let b := b % 256
    let c := c % 256
    b64Alphabet.getD (a / 4) '=' :: b64Alphabet.getD (a % 4 * 16 + b / 16) '=' ::
      b64Alphabet.getD (b % 16 * 4 + c / 64) '=' :: b64Alphabet.getD (c % 64) '=' ::
      b64encode rest

/-- The `while _tts_pending and _tts_pending[0][0].is_set()` flush loop run
    before forwarding an `action` event: pop finished workers from the
    front, emitting `tts_error` for failures and `audio` (with
    `total_chunks: null` and the running chunk counter) for successes.
    Returns the emitted events, the untouched tail and the new counter. -/
def flushPending (ctx : StreamCtx) (t : Nat) :
    List Nat → Nat → List ClientEvent × List Nat × Nat
  | [], c => ([], [], c)
  | i :: rest, c =>
    if ctx.isDone i t then
      match (ctx.tts i).err with
      | some _ =>
        (ClientEvent.tts_error :: (flushPending ctx t rest c).1,
         (flushPending ctx t rest c).2)
      | none =>
        match (ctx.tts i).audio with
        | some payload =>
          (ClientEvent.audio payload c TotalField.null ::
             (flushPending ctx t rest (c + 1)).1,
           (flushPending ctx t rest (c + 1)).2)
        | none => flushPending ctx t rest c
    else ([], i :: rest, c)

/-- The drain loop after `text_done`: await each pending worker in order;
    stop at the first failure with one `tts_error`; successful workers
    emit `audio` with `chunk = chunksSent + i` and the precomputed
    `total_chunks`; workers with no audio and no error are skipped but
    still advance `i`. -/
def drainPending (ctx : StreamCtx) (chunksSent total : Nat) :
    List Nat → Nat → List ClientEvent
  | [], _ => []
  | taskId :: rest, i =>
    match (ctx.tts taskId).err with
    | some _ => [ClientEvent.tts_error]
    | none =>
      match (ctx.tts taskId).audio with
      | some payload =>
        ClientEvent.audio payload (chunksSent + i) (TotalField.val total) ::
          drainPending ctx chunksSent total rest (i + 1)
      | none => drainPending ctx chunksSent total rest (i + 1)

/-- Truthiness of the optional response string (Python `if full_response`). -/
def respTruthy (o : Option (List Char)) : Bool :=
  match o with
  | some t => !t.isEmpty
  | none => false

/-- `full_response.strip().upper() in ("NO", "NO.", "YES", "YES.")`. -/
def isNoYes (t : List Char) : Bool :=
  let u := pupper (pstrip t)
  u = "NO".toList || u = "NO.".toList || u = "YES".toList || u = "YES.".toList

/-- Characters admitted by `[\w/.-]` (ASCII reading of `\w`). -/
def isTmpPathChar (c : Char) : Bool :=
  c.isAlphanum || c = '_' || c = '/' || c = '.' || c = '-'

/-- `re.match(r"^/tmp/[\w/.-]+$", s)` on an already stripped string. -/
def isTmpPath (s : List Char) : Bool :=
  s.take 5 = "/tmp/".toList && !(s.drop 5).isEmpty && (s.drop 5).all isTmpPathChar

/-- The `[SESSION_RESET]` marker. -/
def sessionResetMarker : List Char := "[SESSION_RESET]".toList

/-- The `max_response_chars` truncation applied to a truthy response at
    the top of the `text_done` handler. -/
def truncResp (ctx : StreamCtx) (resp : Option (List Char)) : Option (List Char) :=
  match resp with
  | some t =>
    if t ≠ [] then
      match ctx.maxResponseChars with
      | some m => some (_truncate_at_sentence t m)
      | none => some t
    else some t
  | none => none

/-- Handler of a gateway `text_done` event (lines 692-849 of
    routes/conversation.py): truncation, sentinel suppression, the
    consecutive-empty auto-reset, the `[SESSION_RESET]` marker, the agent
    file-path passthrough, and the TTS drain.  Every branch terminates the
    stream. -/
def handleTextDone (ctx : StreamCtx) (resp : Option (List Char))
    (s : StreamState) : List ClientEvent × StreamState :=
  let r1 : Option (List Char) := truncResp ctx resp
  if ctx.userMessage.take 2 = "__".toList ∧ respTruthy r1 = true ∧
      isNoYes (r1.getD []) = true then
    ([ClientEvent.no_audio], s)
  else
    let isEmptyResp : Bool :=
      match r1 with
      | none => true
      | some t => (pstrip t).isEmpty
    let ce1 := if isEmptyResp then s.consecutiveEmpty + 1 else 0
    let bumpedAuto := isEmptyResp ∧ 3 ≤ ce1
    let resetEvs : List ClientEvent :=
      if bumpedAuto then
        [ClientEvent.session_reset s.sessionCounter (s.sessionCounter + 1)
          "consecutive_empty".toList]
      else []
    let ce2 := if bumpedAuto then 0 else ce1
    let sc2 := if bumpedAuto then s.sessionCounter + 1 else s.sessionCounter
    let hasMarker : Bool :=
      match r1 with
      | some t => hasSub sessionResetMarker t
      | none => false
    let ce3 := if hasMarker then 0 else ce2
    let sc3 := if hasMarker then sc2 + 1 else sc2
    let r2 : Option (List Char) :=
      if hasMarker then r1.map (fun t => pstrip (replaceSub sessionResetMarker [] t))
      else r1
    if respTruthy r2 = true ∧ isTmpPath (pstrip (r2.getD [])) = true then
      let fevs : List ClientEvent :=
        match ctx.fileBytes (pstrip (r2.getD [])) with
        | some bytes => [ClientEvent.audio (b64encode bytes) 0 TotalField.absent]
        | none => [ClientEvent.tts_error]
      (ClientEvent.text_done r1 :: resetEvs ++ fevs,
       { s with consecutiveEmpty := ce3, sessionCounter := sc3 })
    else
      let remaining := pstrip s.buf
      let pending1 := if !remaining.isEmpty then s.pending ++ [s.nextTask] else s.pending
      let next1 := if !remaining.isEmpty then s.nextTask + 1 else s.nextTask
      let fireFallback : Bool :=
        pending1.isEmpty && respTruthy r2 &&
          (let ct := ctx.clean (r2.getD [])
           !ct.isEmpty && !(pstrip ct).isEmpty)
      let pending2 := if fireFallback then pending1 ++ [next1] else pending1
      let next2 := if fireFallback then next1 + 1 else next1
      let sOut : StreamState :=
        { s with consecutiveEmpty := ce3, sessionCounter := sc3,
                 buf := if !remaining.isEmpty then [] else s.buf,
                 pending := pending2, nextTask := next2 }
      if pending2.isEmpty then
        (ClientEvent.text_done r1 :: resetEvs ++ [ClientEvent.no_audio], sOut)
      else
        let total := s.chunksSent + pending2.length
        (ClientEvent.text_done r1 :: resetEvs ++
          drainPending ctx s.chunksSent total pending2 0, sOut)

/-- State update of the `delta` transition: append the fragment to the
    buffer, and unless an open tag blocks it, run the sentence extractor
    and fire one TTS worker for a non-empty extracted sentence. -/
def deltaStep (ctx : StreamCtx) (t : List Char) (s : StreamState) : StreamState :=
  let buf0 := s.buf ++ t
  let fired : Option (List Char) × List Char :=
    if _has_open_tag buf0 then (none, buf0)
    else _extract_sentence buf0 40
  let doFire : Bool :=
    match fired.1 with
    | some sent => !sent.isEmpty
    | none => false
  { s with buf := fired.2,
           pending := if doFire then s.pending ++ [s.nextTask] else s.pending,
           nextTask := if doFire then s.nextTask + 1 else s.nextTask }

/-- State update of the `action` transition: the flush loop pops finished
    workers and advances the chunk counter. -/
def actionStep (ctx : StreamCtx) (s : StreamState) : StreamState :=
  { s with pending := (flushPending ctx s.actionCount s.pending s.chunksSent).2.1,
           chunksSent := (flushPending ctx s.actionCount s.pending s.chunksSent).2.2,
           actionCount := s.actionCount + 1 }

/-- The streaming loop of `stream_response`: consume gateway events in
    order; an exhausted queue is the 310-second timeout, which emits a
    final `error`.  Returns the full client trace and the final state. -/
def streamResponse (ctx : StreamCtx) :
    List GwEvent → StreamState → List ClientEvent × StreamState
  | [], s => ([ClientEvent.error "Gateway timeout".toList], s)
  | GwEvent.handshake _ :: rest, s => streamResponse ctx rest s
  | GwEvent.delta t :: rest, s =>
    (ClientEvent.delta t :: (streamResponse ctx rest (deltaStep ctx t s)).1,
     (streamResponse ctx rest (deltaStep ctx t s)).2)
  | GwEvent.action a :: rest, s =>
    ((flushPending ctx s.actionCount s.pending s.chunksSent).1 ++
       ClientEvent.action a :: (streamResponse ctx rest (actionStep ctx s)).1,
     (streamResponse ctx rest (actionStep ctx s)).2)
  | GwEvent.text_done r :: _, s => handleTextDone ctx r s
  | GwEvent.error m :: _, s => ([ClientEvent.error m], s)

/-- State of a fresh request: per-request variables reset, the
    module-level globals carried over. -/
def freshState (ce sc : Nat) : StreamState :=
  { buf := [], pending := [], chunksSent := 0, nextTask := 0, actionCount := 0,
    consecutiveEmpty := ce, sessionCounter := sc }

/-- One whole streaming request, from the module-level globals it starts
    with. -/
def runRequest (ctx : StreamCtx) (events : List GwEvent) (ce sc : Nat) :
    List ClientEvent × StreamState :=
  streamResponse ctx events (freshState ce sc)

/- ------------------------------------------------------------------ -/
/- routes/conversation.py: voice session counter (C9)                  -/
/- ------------------------------------------------------------------ -/

/-- Outcome of opening and reading the counter file.  `notFound` is
    `FileNotFoundError`, `badContent` is the `ValueError` from `int()`,
    `ioError` is any other `OSError` (e.g. permissions). -/
inductive ReadResult where
  | ok (n : Nat)
  | notFound
  | badContent
  | ioError
deriving DecidableEq

/-- Filesystem behaviour backing the counter file for one call. -/
structure CounterFS where
  read : ReadResult
  writeOk : Bool
deriving DecidableEq

/-- In-memory module state: `_session_key_cache` (keys identified by their
    counter value) and `_consecutive_empty_responses`. -/
structure SessionMem where
  cache : Option Nat
  consecutiveEmpty : Nat
deriving DecidableEq

/-- `_save_session_counter`: a bare `open(..., "w")` + `write` with no
    exception handler; a write failure propagates. -/
def _save_session_counter (fs : CounterFS) (_counter : Nat) : Except Unit Unit :=
  if fs.writeOk then Except.ok () else Except.error ()

/-- `get_voice_session_key`: cached read; on a cache miss read the file,
    recovering `FileNotFoundError` / `ValueError` with the default 6 which
    is then written back via `_save_session_counter`.  Returns the counter
    of the key together with the updated memory. -/
def get_voice_session_key (fs : CounterFS) (mem : SessionMem) :
    Except Unit (Nat × SessionMem) :=
  match mem.cache with
  | some k => Except.ok (k, mem)
  | none =>
    match fs.read with
    | ReadResult.ok n => Except.ok (n, { mem with cache := some n })
    | ReadResult.notFound =>
      match _save_session_counter fs 6 with
      | Except.ok _ => Except.ok (6, { mem with cache := some 6 })
      | Except.error e => Except.error e
    | ReadResult.badContent =>
      match _save_session_counter fs 6 with
      | Except.ok _ => Except.ok (6, { mem with cache := some 6 })
      | Except.error e => Except.error e
    | ReadResult.ioError => Except.error ()

/-- `bump_voice_session`: read the file (recovering only
    `FileNotFoundError` / `ValueError` with 6), increment, persist via the
    unguarded `_save_session_counter`, zero the consecutive-empty counter
    and refresh the cache. -/
def bump_voice_session (fs : CounterFS) (mem : SessionMem) :
    Except Unit (Nat × SessionMem) :=
  match
    (match fs.read with
     | ReadResult.ok n => Except.ok n
     | ReadResult.notFound => Except.ok 6
     | ReadResult.badContent => Except.ok 6
     | ReadResult.ioError => Except.error ()) with
  | Except.error e => Except.error e
  | Except.ok counter =>
    match _save_session_counter fs (counter + 1) with
    | Except.error e => Except.error e
    | Except.ok _ =>
      Except.ok (counter + 1, { cache := some (counter + 1), consecutiveEmpty := 0 })

/- ------------------------------------------------------------------ -/
/- services/gateway_manager.py `GatewayManager.stream_to_queue` (C7)   -/
/- ------------------------------------------------------------------ -/

/-- A registered gateway as the router sees it. -/
structure GatewayM where
  configured : Bool
deriving DecidableEq

/-- `self._gateways.get(gid)` over the registration dict. -/
def lookupGw (reg : List (String × GatewayM)) (gid : String) : Option GatewayM :=
  (reg.find? (fun p => p.1 = gid)).map Prod.snd

/-- Events the manager itself puts on the request queue. -/
inductive QueueEvent where
  | error
deriving DecidableEq

/-- `GatewayManager.stream_to_queue` routing logic: resolve
    `gateway_id or "openclaw"`; fall back to `"openclaw"` only when the
    named gateway is not registered; if the selected gateway is missing or
    unconfigured put one `error` event and return, otherwise delegate.
    Returns the manager-emitted events and the id of the gateway
    delegated to (`none` when no gateway was invoked). -/
def gm_stream_to_queue (reg : List (String × GatewayM))
    (gateway_id : Option String) : List QueueEvent × Option String :=
  let gid : String :=
    match gateway_id with
    | none => "openclaw"
    | some g => if g = "" then "openclaw" else g
  let sel : Option (String × GatewayM) :=
    match lookupGw reg gid with
    | some g => some (gid, g)
    | none => (lookupGw reg "openclaw").map (fun g => ("openclaw", g))
  match sel with
  | none => ([QueueEvent.error], none)
  | some (i, g) =>
    if g.configured then ([], some i) else ([QueueEvent.error], none)

/- ------------------------------------------------------------------ -/
/- services/tts.py `generate_tts_chunked` / `generate_tts_b64`         -/
/- ------------------------------------------------------------------ -/

/-- Little-endian reassembly of exactly two bytes (`struct.unpack("<H")`,
    which raises unless the slice has exactly two bytes). -/
def u16le (l : List Nat) : Option Nat :=
  match l with
  | [a, b] => some (a % 256 + 256 * (b % 256))
  | _ => none

/-- Little-endian reassembly of exactly four bytes (`struct.unpack("<I")`). -/
def u32le (l : List Nat) : Option Nat :=
  match l with
  | [a, b, c, d] =>
    some (a % 256 + 256 * (b % 256) + 65536 * (c % 256) + 16777216 * (d % 256))
  | _ => none

/-- In-bounds little-endian 32-bit read at offset `i`; callers inside the
    subchunk scanners guarantee at least `i + 4` bytes remain. -/
def u32at (l : List Nat) (i : Nat) : Nat :=
  l.getD i 0 % 256 + 256 * (l.getD (i + 1) 0 % 256) +
    65536 * (l.getD (i + 2) 0 % 256) + 16777216 * (l.getD (i + 3) 0 % 256)

/-- `struct.pack("<H", n)` (the code only packs in-range values). -/
def le16 (n : Nat) : List Nat := [n % 256, n / 256 % 256]

/-- `struct.pack("<I", n)`. -/
def le32 (n : Nat) : List Nat :=
  [n % 256, n / 256 % 256, n / 65536 % 256, n / 16777216 % 256]

def riffId : List Nat := [82, 73, 70, 70]
def waveId : List Nat := [87, 65, 86, 69]
def fmtId : List Nat := [102, 109, 116, 32]
def dataId : List Nat := [100, 97, 116, 97]

/-- The three module-level format variables of `generate_tts_chunked`. -/
structure FmtInfo where
  num_channels : Option Nat
  sample_rate : Option Nat
  bits_per_sample : Option Nat
deriving DecidableEq

/-- Parsing of the `fmt ` subchunk body: the three `struct.unpack` calls
    assign `num_channels`, `sample_rate`, `bits_per_sample` in that order;
    a short slice raises after the earlier assignments stuck (the Bool is
    false when an exception escaped). -/
def parseFmt (fmt_data : List Nat) (st : FmtInfo) : FmtInfo × Bool :=
  match u16le ((fmt_data.drop 2).take 2) with
  | none => (st, false)
  | some ch =>
    let st1 := { st with num_channels := some ch }
    match u32le ((fmt_data.drop 4).take 4) with
    | none => (st1, false)
    | some sr =>
      let st2 := { st1 with sample_rate := some sr }
      match u16le ((fmt_data.drop 14).take 2) with
      | none => (st2, false)
      | some bps => ({ st2 with bits_per_sample := some bps }, true)

/-- Subchunk scan of the first chunk (from byte offset 12): record the
    `fmt ` parameters, append the `data` payload and stop there.  The loop
    guard is `pos < len - 8`, so fewer than nine remaining bytes end the
    scan.  Returns the format state, the payload found and whether the
    scan finished without an exception. -/
def scanFirstAux : Nat → List Nat → FmtInfo → FmtInfo × List Nat × Bool
  | 0, _, st => (st, [], true)
  | fuel + 1, l, st =>
    if l.length ≤ 8 then (st, [], true)
    else
      let cid := l.take 4
      let size := u32at l 4
      if cid = fmtId then
        match parseFmt ((l.drop 8).take size) st with
        | (st1, true) => scanFirstAux fuel (l.drop (8 + size)) st1
        | (st1, false) => (st1, [], false)
      else if cid = dataId then (st, (l.drop 8).take size, true)
      else scanFirstAux fuel (l.drop (8 + size)) st

def scanFirst (l : List Nat) (st : FmtInfo) : FmtInfo × List Nat × Bool :=
  scanFirstAux l.length l st

/-- Subchunk scan of a later chunk: only the `data` payload is read; a
    chunk without one contributes nothing. -/
def scanDataAux : Nat → List Nat → List Nat
  | 0, _ => []
  | fuel + 1, l =>
    if l.length ≤ 8 then []
    else
      let cid := l.take 4
      let size := u32at l 4
      if cid = dataId then (l.drop 8).take size
      else scanDataAux fuel (l.drop (8 + size))

def scanData (l : List Nat) : List Nat := scanDataAux l.length l

/-- Head of the reversed accumulator is a sentence terminator (the
    lookbehind `(?<=[.!?])`). -/
def headIsTerm : List Char → Bool
  | p :: _ => p = '.' || p = '!' || p = '?'
  | [] => false

/-- `re.split(r"(?<=[.!?])\s+", text)`: cut after a sentence terminator at
    each maximal whitespace run, dropping the run. -/
def splitSentencesAux : Nat → List Char → List Char → List (List Char)
  | _, [], cur => [cur.reverse]
  | 0, _, cur => [cur.reverse]
  | fuel + 1, c :: rest, cur =>
    if isPySpace c && headIsTerm cur then
      cur.reverse :: splitSentencesAux fuel (rest.dropWhile isPySpace) []
    else splitSentencesAux fuel rest (c :: cur)

def pySplitSentences (l : List Char) : List (List Char) :=
  splitSentencesAux l.length l []

/-- The greedy packing loop of `generate_tts_chunked`. -/
def packChunksAux (max_chars : Nat) : List (List Char) → List Char → List (List Char)
  | [], cur => if !cur.isEmpty then [pstrip cur] else []
  | sent :: rest, cur =>
    if max_chars < cur.length + sent.length + 1 ∧ cur ≠ [] then
      pstrip cur :: packChunksAux max_chars rest sent
    else packChunksAux max_chars rest (pstrip (cur ++ ' ' :: sent))

def packChunks (max_chars : Nat) (sentences : List (List Char)) : List (List Char) :=
  packChunksAux max_chars sentences []

/-- Outcome of the per-chunk loop: the early `return chunk_audio` for a
    non-RIFF/WAVE first chunk, or the accumulated format info and PCM data. -/
inductive ChunkLoopResult where
  | earlyReturn (bytes : List Nat)
  | finished (fmt : FmtInfo) (data : List Nat)
deriving DecidableEq

/-- The chunk loop: skip whitespace-only chunks, catch per-chunk
    synthesis or parse exceptions (`gen c = none`, or a failing
    `scanFirst`), parse headers of chunk index 0, append `data` payloads
    of later RIFF chunks. -/
def processChunks (gen : List Char → Option (List Nat)) :
    List (List Char) → Nat → FmtInfo → List Nat → ChunkLoopResult
  | [], _, fmt, dat => ChunkLoopResult.finished fmt dat
  | c :: rest, i, fmt, dat =>
    if (pstrip c).isEmpty then processChunks gen rest (i + 1) fmt dat
    else
      match gen c with
      | none => processChunks gen rest (i + 1) fmt dat
      | some bytes =>
        if i = 0 then
          if bytes.take 4 = riffId ∧ (bytes.drop 8).take 4 = waveId then
            match scanFirst (bytes.drop 12) fmt with
            | (fmt1, payload, true) => processChunks gen rest (i + 1) fmt1 (dat ++ payload)
            | (fmt1, _, false) => processChunks gen rest (i + 1) fmt1 dat
          else ChunkLoopResult.earlyReturn bytes
        else
          if bytes.take 4 = riffId then
            processChunks gen rest (i + 1) fmt (dat ++ scanData (bytes.drop 12))
          else processChunks gen rest (i + 1) fmt dat

/-- `generate_tts_chunked(provider, text, voice, max_chars=800)` with the
    provider call abstracted as `gen` (`none` models a raised exception,
    also in the short-text and retry paths where it propagates to the
    caller). -/
def generate_tts_chunked (gen : List Char → Option (List Nat))
    (text : List Char) (max_chars : Nat := 800) : Option (List Nat) :=
  if text.length ≤ max_chars then gen text
  else
    let chunks := packChunks max_chars (pySplitSentences text)
    match processChunks gen chunks 0 ⟨none, none, none⟩ [] with
    | ChunkLoopResult.earlyReturn b => some b
    | ChunkLoopResult.finished fmt dat =>
      if dat.isEmpty || fmt.sample_rate.isNone then gen (text.take max_chars)
      else
        match fmt.num_channels, fmt.sample_rate, fmt.bits_per_sample with
        | some ch, some sr, some bps =>
          some (riffId ++ le32 (36 + dat.length) ++ waveId ++
                fmtId ++ le32 16 ++ le16 1 ++ le16 ch ++ le32 sr ++
                le32 (sr * ch * (bps / 8)) ++ le16 (ch * (bps / 8)) ++ le16 bps ++
                dataId ++ le32 dat.length ++ dat)
        | _, _, _ => none

/-- A standard 44-byte-header WAV container: the shape emitted by the
    rebuild step and assumed of provider chunks in the WAV theorems. -/
def stdWav (ch sr bps : Nat) (payload : List Nat) : List Nat :=
  riffId ++ le32 (36 + payload.length) ++ waveId ++ fmtId ++ le32 16 ++ le16 1 ++
    le16 ch ++ le32 sr ++ le32 (sr * ch * (bps / 8)) ++ le16 (ch * (bps / 8)) ++
    le16 bps ++ dataId ++ le32 payload.length ++ payload

/-- Expected PCM contribution of the chunks after the first: the `data`
    payload (everything after the 44-byte header for a standard WAV) of
    each successful non-skipped chunk, in order. -/
def tailPayloads (gen : List Char → Option (List Nat)) : List (List Char) → List Nat
  | [] => []
  | c :: rest =>
    (if (pstrip c).isEmpty then []
     else match gen c with
       | none => []
       | some b => b.drop 44) ++ tailPayloads gen rest

/-- A TTS provider as `generate_tts_b64` uses one: `get_info()["audio_format"]`
    and `generate_speech(text=..., voice=...)`; `Except.error` / `none`
    model raised exceptions. -/
structure TTSProviderM where
  info_format : Except Unit (List Char)
  generate : List Char → List Char → Option (List Nat)

/-- `generate_tts_b64(text, voice, tts_provider)`: the entire body sits in
    one `try` whose `except` returns `None`.  `lookup` models
    `get_provider(tts_provider)`. -/
def generate_tts_b64 (lookup : Except Unit TTSProviderM) (text : List Char)
    (voice : Option (List Char)) : Option (List Char) :=
  let v : List Char :=
    match voice with
    | none => "M1".toList
    | some w => if w.isEmpty then "M1".toList else w
  match lookup with
  | Except.error _ => none
  | Except.ok p =>
    match p.info_format with
    | Except.error _ => none
    | Except.ok fmt =>
      let audioBytes : Option (List Nat) :=
        if fmt = "mp3".toList then p.generate v text
        else generate_tts_chunked (p.generate v) text 800
      match audioBytes with
      | none => none
      | some b => some (b64encode b)

/- ------------------------------------------------------------------ -/
/- services/speech_normalizer.py `SpeechNormalizer.normalize` (C8)     -/
/-                                                                     -/
/- The repository ships no config/speech_normalization.yaml, so        -/
/- `_load_config` takes the missing-file path: built-in defaults, the  -/
/- built-in fallback markdown patterns, the default URL pattern, no    -/
/- abbreviations and no profile overrides (hence `normalize` ignores   -/
/- the profile id).                                                    -/
/- ------------------------------------------------------------------ -/

/-- Length of the maximal prefix run satisfying `p`. -/
def runLen (p : Char → Bool) (l : List Char) : Nat := (l.takeWhile p).length

/-- The list starts with the given pattern. -/
def startsWithPat (pat : List Char) (l : List Char) : Bool := l.take pat.length = pat

/-- Index of the first occurrence of `needle` as a sub-list. -/
def findSubIdx (needle : List Char) : List Char → Option Nat
  | [] => if needle = [] then some 0 else none
  | c :: rest =>
    if needle.isPrefixOf (c :: rest) then some 0
    else (findSubIdx needle rest).map (· + 1)

/-- Highest index at which `needle` occurs (`str.rfind` for a multi-char
    needle), `none` when absent. -/
def rfindSub (needle : List Char) (l : List Char) : Option Nat :=
  ((List.range (l.length + 1)).filter (fun i => needle.isPrefixOf (l.drop i))).getLast?

/-- `re.sub` driver: scan left to right; a matcher reports the number of
    consumed characters (always at least one for the patterns used here)
    and the replacement; on a match the scan resumes after the consumed
    span, otherwise it advances one character.  The Bool tracks
    `re.MULTILINE` line starts. -/
def reSubAux (m : Bool → List Char → Option (Nat × List Char)) :
    Nat → Bool → List Char → List Char
  | _, _, [] => []
  | 0, _, l => l
  | fuel + 1, atStart, c :: rest =>
    match m atStart (c :: rest) with
    | some (k, repl) =>
      let k1 := max k 1
      repl ++ reSubAux m fuel (decide (((c :: rest).take k1).getLast? = some '\n'))
        ((c :: rest).drop k1)
    | none => c :: reSubAux m fuel (decide (c = '\n')) rest

def reSub (m : Bool → List Char → Option (Nat × List Char)) (l : List Char) :
    List Char := reSubAux m l.length true l

/-- Pattern ``r"```[\s\S]*?```"`` (lazy: nearest closing fence). -/
def mFence (_ : Bool) (l : List Char) : Option (Nat × List Char) :=
  if startsWithPat [backtickChar, backtickChar, backtickChar] l then
    match findSubIdx [backtickChar, backtickChar, backtickChar] (l.drop 3) with
    | some n => some (3 + n + 3, [])
    | none => none
  else none

/-- Pattern ``r"`[^`]+`"``. -/
def mInlineCode (_ : Bool) (l : List Char) : Option (Nat × List Char) :=
  match l with
  | c :: rest =>
    if c = backtickChar then
      let n := runLen (fun x => x ≠ backtickChar) rest
      if 1 ≤ n ∧ (rest.drop n).head? = some backtickChar then some (n + 2, [])
      else none
    else none
  | [] => none

/-- Pattern `r"^#{1,6}\s+"` (MULTILINE): more than six hashes leaves no
    whitespace after any one-to-six-hash prefix, so no match. -/
def mHeading (atStart : Bool) (l : List Char) : Option (Nat × List Char) :=
  if atStart then
    let h := runLen (· = '#') l
    if 1 ≤ h ∧ h ≤ 6 then
      let w := runLen isPySpace (l.drop h)
      if 1 ≤ w then some (h + w, []) else none
    else none
  else none

/-- Lazy group search for the pair patterns: the shortest non-empty run of
    non-newline characters after which `closePat` matches. -/
def findClose (closePat : List Char) : List Char → Option Nat
  | [] => none
  | b :: brest =>
    if b = '\n' then none
    else if closePat.isPrefixOf brest then some 1
    else (findClose closePat brest).map (· + 1)

/-- Patterns of the form `open(.+?)close` replaced by the group
    (`\*\*(.+?)\*\*`, `__(.+?)__`, `\*(.+?)\*`, `_(.+?)_`, `~~(.+?)~~`). -/
def mPair (openPat closePat : List Char) (_ : Bool) (l : List Char) :
    Option (Nat × List Char) :=
  if startsWithPat openPat l then
    let body := l.drop openPat.length
    match findClose closePat body with
    | some g => some (openPat.length + g + closePat.length, body.take g)
    | none => none
  else none

/-- Pattern `r"^[-*_]{3,}$"` (MULTILINE). -/
def mHr (atStart : Bool) (l : List Char) : Option (Nat × List Char) :=
  if atStart then
    let r := runLen (fun c => c = '-' || c = '*' || c = '_') l
    if 3 ≤ r ∧ ((l.drop r).head? = none ∨ (l.drop r).head? = some '\n') then
      some (r, [])
    else none
  else none

/-- Pattern `r"\[([^\]]+)\]\([^)]+\)"` replaced by the link text. -/
def mLink (_ : Bool) (l : List Char) : Option (Nat × List Char) :=
  match l with
  | '[' :: rest =>
    let n1 := runLen (· ≠ ']') rest
    if 1 ≤ n1 ∧ (rest.drop n1).head? = some ']' ∧
        (rest.drop (n1 + 1)).head? = some '(' then
      let after := rest.drop (n1 + 2)
      let n2 := runLen (· ≠ ')') after
      if 1 ≤ n2 ∧ (after.drop n2).head? = some ')' then
        some (n1 + n2 + 4, rest.take n1)
      else none
    else none
  | _ => none

/-- Pattern `r"!\[[^\]]*\]\([^)]+\)"` removed. -/
def mImage (_ : Bool) (l : List Char) : Option (Nat × List Char) :=
  match l with
  | '!' :: '[' :: rest =>
    let n1 := runLen (· ≠ ']') rest
    if (rest.drop n1).head? = some ']' ∧ (rest.drop (n1 + 1)).head? = some '(' then
      let after := rest.drop (n1 + 2)
      let n2 := runLen (· ≠ ')') after
      if 1 ≤ n2 ∧ (after.drop n2).head? = some ')' then
        some (n1 + n2 + 5, [])
      else none
    else none
  | _ => none

/-- Pattern `r"^>\s*"` (MULTILINE). -/
def mBlockquote (atStart : Bool) (l : List Char) : Option (Nat × List Char) :=
  if atStart then
    match l with
    | '>' :: rest => some (1 + runLen isPySpace rest, [])
    | _ => none
  else none

/-- Pattern `r"^[\-\*\+]\s+"` (MULTILINE). -/
def mBullet (atStart : Bool) (l : List Char) : Option (Nat × List Char) :=
  if atStart then
    match l with
    | c :: rest =>
      if c = '-' || c = '*' || c = '+' then
        let w := runLen isPySpace rest
        if 1 ≤ w then some (1 + w, []) else none
      else none
    | [] => none
  else none

/-- Pattern `r"^\d+\.\s+"` (MULTILINE). -/
def mOrdered (atStart : Bool) (l : List Char) : Option (Nat × List Char) :=
  if atStart then
    let d := runLen Char.isDigit l
    if 1 ≤ d ∧ (l.drop d).head? = some '.' then
      let w := runLen isPySpace (l.drop (d + 1))
      if 1 ≤ w then some (d + 1 + w, []) else none
    else none
  else none

/-- The default URL pattern `r"https?://[^\s]+"`. -/
def mUrl (_ : Bool) (l : List Char) : Option (Nat × List Char) :=
  if startsWithPat "https://".toList l then
    let n := runLen (fun c => !isPySpace c) (l.drop 8)
    if 1 ≤ n then some (8 + n, []) else none
  else if startsWithPat "http://".toList l then
    let n := runLen (fun c => !isPySpace c) (l.drop 7)
    if 1 ≤ n then some (7 + n, []) else none
  else none

/-- `r"[ \t]+"` collapsed to one space. -/
def mSpaceRun (_ : Bool) (l : List Char) : Option (Nat × List Char) :=
  let n := runLen (fun c => c = ' ' || c = '\t') l
  if 1 ≤ n then some (n, [' ']) else none

/-- `r"\n{2,}"` collapsed to one space. -/
def mNl2 (_ : Bool) (l : List Char) : Option (Nat × List Char) :=
  let n := runLen (· = '\n') l
  if 2 ≤ n then some (n, [' ']) else none

/-- `r"\n"` replaced by one space. -/
def mNl1 (_ : Bool) (l : List Char) : Option (Nat × List Char) :=
  match l with
  | '\n' :: _ => some (1, [' '])
  | _ => none

/-- `_strip_markdown` with the built-in fallback patterns, in source
    order. -/
def _strip_markdown (l : List Char) : List Char :=
  let t := reSub mFence l
  let t := reSub mInlineCode t
  let t := reSub mHeading t
  let t := reSub (mPair ['*', '*'] ['*', '*']) t
  let t := reSub (mPair ['_', '_'] ['_', '_']) t
  let t := reSub (mPair ['*'] ['*']) t
  let t := reSub (mPair ['_'] ['_']) t
  let t := reSub (mPair ['~', '~'] ['~', '~']) t
  let t := reSub mHr t
  let t := reSub mLink t
  let t := reSub mImage t
  let t := reSub mBlockquote t
  let t := reSub mBullet t
  reSub mOrdered t

/-- `_strip_urls` with the default pattern. -/
def _strip_urls (l : List Char) : List Char := reSub mUrl l

/-- Membership in the emoji ranges of `_strip_emoji`. -/
def isEmojiChar (c : Char) : Bool :=
  let n := c.toNat
  (0x1F300 ≤ n ∧ n ≤ 0x1F9FF) || (0x2600 ≤ n ∧ n ≤ 0x27BF) ||
    (0x1FA00 ≤ n ∧ n ≤ 0x1FAFF) || (0x2702 ≤ n ∧ n ≤ 0x27B0) ||
    (0x24C2 ≤ n ∧ n ≤ 0x1F251)

/-- `_strip_emoji`: a character-class-plus substitution by the empty
    string equals dropping every character of the class. -/
def _strip_emoji (l : List Char) : List Char := l.filter (fun c => !isEmojiChar c)

/-- Stages 1-4 of `normalize` (the abbreviation table is empty with the
    built-in defaults, so stage 4 is the identity). -/
def stripStages (l : List Char) : List Char :=
  _strip_emoji (_strip_urls (_strip_markdown l))

/-- Stage 5 of `normalize`: the three whitespace-collapse substitutions. -/
def collapseStages (l : List Char) : List Char :=
  reSub mNl1 (reSub mNl2 (reSub mSpaceRun l))

/-- Stage 7 of `normalize`: the `max_length = 800` enforcement.  The
    sentence-boundary cut keeps `cut + 1` characters when
    `text[:800].rfind(". ")` lands past half the limit; otherwise the
    first 800 characters are right-stripped and an ellipsis appended. -/
def truncStage (l : List Char) : List Char :=
  if 800 < l.length then
    match rfindSub ['.', ' '] (l.take 800) with
    | some i =>
      if 400 < i then l.take (i + 1)
      else prstrip (l.take 800) ++ ['.', '.', '.']
    | none => prstrip (l.take 800) ++ ['.', '.', '.']
  else l

/-- `SpeechNormalizer.normalize(text, profile_id)` under the shipped
    (absent) configuration.  With no config file there are no profile
    overrides, so the profile id does not influence the result. -/
def SpeechNormalizer.normalize (text : List Char) (_profile_id : Option String) :
    List Char :=
  if text = [] then text
  else truncStage (pstrip (collapseStages (stripStages text)))

/- ------------------------------------------------------------------ -/
/- Observation functions over client traces, and concrete instances    -/
/- used by the theorems below.                                         -/
/- ------------------------------------------------------------------ -/

def isTextDoneEv : ClientEvent → Bool
  | ClientEvent.text_done _ => true
  | _ => false

def isErrorEv : ClientEvent → Bool
  | ClientEvent.error _ => true
  | _ => false

def isNoAudioEv : ClientEvent → Bool
  | ClientEvent.no_audio => true
  | _ => false

def isSessionResetEv : ClientEvent → Bool
  | ClientEvent.session_reset _ _ _ => true
  | _ => false

/-- Exactly one of `text_done` / `error` / `no_audio` in a trace, except
    that the `no_audio` emitted when no TTS worker is pending may follow
    the `text_done` of the same request. -/
def terminalOk (tr : List ClientEvent) : Prop :=
  (tr.countP isTextDoneEv = 1 ∧ tr.countP isErrorEv = 0 ∧
     tr.countP isNoAudioEv ≤ 1) ∨
  (tr.countP isTextDoneEv = 0 ∧ tr.countP isErrorEv = 1 ∧
     tr.countP isNoAudioEv = 0) ∨
  (tr.countP isTextDoneEv = 0 ∧ tr.countP isErrorEv = 0 ∧
     tr.countP isNoAudioEv = 1)

/-- `chunk` fields of the non-passthrough audio events (those whose JSON
    carries a `total_chunks` key), in emission order. -/
def audioChunksNP (tr : List ClientEvent) : List Nat :=
  tr.filterMap (fun e =>
    match e with
    | ClientEvent.audio _ ch TotalField.null => some ch
    | ClientEvent.audio _ ch (TotalField.val _) => some ch
    | _ => none)

/-- `chunk` fields of the agent-file-path passthrough audio events (no
    `total_chunks` key). -/
def ptChunks (tr : List ClientEvent) : List Nat :=
  tr.filterMap (fun e =>
    match e with
    | ClientEvent.audio _ ch TotalField.absent => some ch
    | _ => none)

/-- A qualifying sentence boundary of `_extract_sentence` as the code
    implements it: a terminator character followed by a space or the end
    of the buffer. -/
@[reducible] def boundaryShape (l : List Char) (j : Nat) : Prop :=
  (l.get? j = some '.' ∨ l.get? j = some '!' ∨ l.get? j = some '?') ∧
  (l.get? (j + 1) = none ∨ l.get? (j + 1) = some ' ')

/-- The response of a `text_done` is empty or whitespace-only
    (`not full_response or not full_response.strip()`). -/
@[reducible] def emptyOrWS (r : Option (List Char)) : Prop :=
  match r with
  | none => True
  | some t => pstrip t = []

/-- A trivial request environment: TTS workers never finish and produce
    nothing, the cleaner is the identity, file reads fail.  The claims
    settled on it do not depend on these choices. -/
def ctxTriv : StreamCtx :=
  { userMessage := "hi".toList, maxResponseChars := none,
    tts := fun _ => ⟨none, none⟩, isDone := fun _ _ => false,
    clean := fun t => t, fileBytes := fun _ => none }

/-- Environment of the C3 counterexample: worker 0 finishes with no audio
    and no error (a sentence whose cleaned text is empty, or a worker
    still running when the 30-second drain wait expires); worker 1
    produces audio. -/
def ctxC3 : StreamCtx :=
  { ctxTriv with
    tts := fun i => if i = 1 then ⟨some "AA".toList, none⟩ else ⟨none, none⟩ }

/-- A 41-character delta ending in a qualifying sentence boundary. -/
def deltaC3 : List Char := List.replicate 39 'a' ++ ['.', ' ']

/-- Environment of scenario S6: the sentinel session-start message. -/
def ctxC5 : StreamCtx := { ctxTriv with userMessage := "__session_start__".toList }

/-- A session-start environment with arbitrary worker, cleaner and file
    behaviour (used to show the S6 trace is independent of them). -/
def ctxSentinel (tts : Nat → TTSResult) (isDone : Nat → Nat → Bool)
    (clean : List Char → List Char) (fileBytes : List Char → Option (List Nat)) :
    StreamCtx :=
  { userMessage := "__session_start__".toList, maxResponseChars := none,
    tts := tts, isDone := isDone, clean := clean, fileBytes := fileBytes }

/-- Registry of the C7 counterexample: the requested gateway is registered
    but unconfigured while the `openclaw` default is registered and
    configured. -/
def regC7 : List (String × GatewayM) := [("x", ⟨false⟩), ("openclaw", ⟨true⟩)]

/-- WAV chunk used by the C6 theorems. -/
def wavC6 : List Nat := stdWav 1 8000 16 [1, 2, 3, 4]

/-- Provider of the C6 counterexample: chunk 0 (`"a. b."`) raises, chunk 1
    (`"c."`) returns a valid RIFF/WAVE container; the truncated retry
    (again `"a. b."`) raises too. -/
def genC6cex : List Char → Option (List Nat) :=
  fun s => if s = "c.".toList then some wavC6 else none

/-- Text of the C6 counterexample, split by the chunker (cap 5) into
    `["a. b.", "c."]`. -/
def textC6cex : List Char := "a. b. c.".toList

/-- Provider of the C6 witness: chunk 0 (`"aa."`) returns a valid WAV,
    chunk 1 (`"bb."`) raises. -/
def genC6wit : List Char → Option (List Nat) :=
  fun s => if s = "aa.".toList then some wavC6 else none

def textC6wit : List Char := "aa. bb.".toList

/-- Counterexample input of C8: a one-star emphasis pair split by a
    newline.  The markdown pass cannot match it (the dot of the pattern
    excludes newlines), but the later whitespace-collapse stage turns the
    newline into a space, leaving a matchable pair in the output. -/
def x8 : List Char := "*a\nb*".toList

/-- A provider whose synthesis always raises (C10 witness). -/
def provAllFail : TTSProviderM :=
  { info_format := Except.ok "wav".toList, generate := fun _ _ => none }

/-- A provider whose synthesis succeeds on short text (C10 witness). -/
def provOk : TTSProviderM :=
  { info_format := Except.ok "wav".toList, generate := fun _ _ => some [1, 2] }

/- ================================================================== -/
/- Theorems                                                            -/
/- ================================================================== -/

lemma flushPending_mem (ctx : StreamCtx) (t : Nat) :
    ∀ (pend : List Nat) (c : Nat) (e : ClientEvent),
      e ∈ (flushPending ctx t pend c).1 →
      (∃ p ch, e = ClientEvent.audio p ch TotalField.null) ∨
        e = ClientEvent.tts_error := by
  intro pend
  induction pend with
  | nil => intro c e he; simp [flushPending] at he
  | cons i rest ih =>
    intro c e he
    by_cases hd : ctx.isDone i t
    · rcases herr : (ctx.tts i).err with _ | msg
      · rcases haud : (ctx.tts i).audio with _ | pay
        · simp only [flushPending, hd, if_true, herr, haud] at he
          exact ih c e he
        · simp only [flushPending, hd, if_true, herr, haud, List.mem_cons] at he
          rcases he with rfl | he
          · exact Or.inl ⟨pay, c, rfl⟩
          · exact ih (c + 1) e he
      · simp only [flushPending, hd, if_true, herr, List.mem_cons] at he
        rcases he with rfl | he
        · exact Or.inr rfl
        · exact ih c e he
    · simp only [flushPending, hd, if_false] at he
      simp at he

lemma drainPending_mem (ctx : StreamCtx) (cs total : Nat) :
    ∀ (pend : List Nat) (i : Nat) (e : ClientEvent),
      e ∈ drainPending ctx cs total pend i →
      (∃ p ch, e = ClientEvent.audio p ch (TotalField.val total)) ∨
        e = ClientEvent.tts_error := by
  intro pend
  induction pend with
  | nil => intro i e he; simp [drainPending] at he
  | cons taskId rest ih =>
    intro i e he
    rcases herr : (ctx.tts taskId).err with _ | msg
    · rcases haud : (ctx.tts taskId).audio with _ | pay
      · simp only [drainPending, herr, haud] at he
        exact ih (i + 1) e he
      · simp only [drainPending, herr, haud, List.mem_cons] at he
        rcases he with rfl | he
        · exact Or.inl ⟨pay, cs + i, rfl⟩
        · exact ih (i + 1) e he
    · simp only [drainPending, herr, List.mem_cons] at he
      rcases he with rfl | he
      · exact Or.inr rfl
      · simp at he

lemma flushPending_countP_zero (ctx : StreamCtx) (t : Nat) (pend : List Nat)
    (c : Nat) (p : ClientEvent → Bool)
    (hp1 : ∀ pay ch tot, p (ClientEvent.audio pay ch tot) = false)
    (hp2 : p ClientEvent.tts_error = false) :
    (flushPending ctx t pend c).1.countP p = 0 := by
  rw [List.countP_eq_zero]
  intro e he
  rcases flushPending_mem ctx t pend c e he with ⟨pay, ch, rfl⟩ | rfl
  · simp [hp1]
  · simp [hp2]

lemma drainPending_countP_zero (ctx : StreamCtx) (cs total : Nat)
    (pend : List Nat) (i : Nat) (p : ClientEvent → Bool)
    (hp1 : ∀ pay ch tot, p (ClientEvent.audio pay ch tot) = false)
    (hp2 : p ClientEvent.tts_error = false) :
    (drainPending ctx cs total pend i).countP p = 0 := by
  rw [List.countP_eq_zero]
  intro e he
  rcases drainPending_mem ctx cs total pend i e he with ⟨pay, ch, rfl⟩ | rfl
  · simp [hp1]
  · simp [hp2]


lemma resetEvs_countP_td (B : Prop) [Decidable B] (o n : Nat) (rr : List Char) :
    ((if B then [ClientEvent.session_reset o n rr] else []) :
      List ClientEvent).countP isTextDoneEv = 0 := by
  split <;> simp [isTextDoneEv]

lemma resetEvs_countP_er (B : Prop) [Decidable B] (o n : Nat) (rr : List Char) :
    ((if B then [ClientEvent.session_reset o n rr] else []) :
      List ClientEvent).countP isErrorEv = 0 := by
  split <;> simp [isErrorEv]

lemma resetEvs_countP_na (B : Prop) [Decidable B] (o n : Nat) (rr : List Char) :
    ((if B then [ClientEvent.session_reset o n rr] else []) :
      List ClientEvent).countP isNoAudioEv = 0 := by
  split <;> simp [isNoAudioEv]

lemma fevs_countP_td (fb : Option (List Nat)) :
    ((match fb with
      | some bytes => [ClientEvent.audio (b64encode bytes) 0 TotalField.absent]
      | none => [ClientEvent.tts_error]) : List ClientEvent).countP isTextDoneEv = 0 := by
  rcases fb <;> simp [isTextDoneEv]

lemma fevs_countP_er (fb : Option (List Nat)) :
    ((match fb with
      | some bytes => [ClientEvent.audio (b64encode bytes) 0 TotalField.absent]
      | none => [ClientEvent.tts_error]) : List ClientEvent).countP isErrorEv = 0 := by
  rcases fb <;> simp [isErrorEv]

lemma fevs_countP_na (fb : Option (List Nat)) :
    ((match fb with
      | some bytes => [ClientEvent.audio (b64encode bytes) 0 TotalField.absent]
      | none => [ClientEvent.tts_error]) : List ClientEvent).countP isNoAudioEv = 0 := by
  rcases fb <;> simp [isNoAudioEv]

lemma drain_countP_td (ctx : StreamCtx) (cs total : Nat) (pend : List Nat) (i : Nat) :
    (drainPending ctx cs total pend i).countP isTextDoneEv = 0 :=
  drainPending_countP_zero ctx cs total pend i _ (fun _ _ _ => rfl) rfl

lemma drain_countP_er (ctx : StreamCtx) (cs total : Nat) (pend : List Nat) (i : Nat) :
    (drainPending ctx cs total pend i).countP isErrorEv = 0 :=
  drainPending_countP_zero ctx cs total pend i _ (fun _ _ _ => rfl) rfl

lemma drain_countP_na (ctx : StreamCtx) (cs total : Nat) (pend : List Nat) (i : Nat) :
    (drainPending ctx cs total pend i).countP isNoAudioEv = 0 :=
  drainPending_countP_zero ctx cs total pend i _ (fun _ _ _ => rfl) rfl

lemma handleTextDone_terminal (ctx : StreamCtx) (r : Option (List Char))
    (s : StreamState) :
    ((handleTextDone ctx r s).1.countP isTextDoneEv = 1 ∧
     (handleTextDone ctx r s).1.countP isErrorEv = 0 ∧
     (handleTextDone ctx r s).1.countP isNoAudioEv ≤ 1) ∨
    ((handleTextDone ctx r s).1.countP isTextDoneEv = 0 ∧
     (handleTextDone ctx r s).1.countP isErrorEv = 0 ∧
     (handleTextDone ctx r s).1.countP isNoAudioEv = 1) := by
  simp only [handleTextDone]
  split
  · right
    simp [isTextDoneEv, isErrorEv, isNoAudioEv]
  · left
    refine ⟨?_, ?_, ?_⟩ <;>
    · repeat' split
      all_goals
        simp [isTextDoneEv, isErrorEv, isNoAudioEv, List.countP_cons, List.countP_append,
          drain_countP_td, drain_countP_er, drain_countP_na]

/-- C1, amended part: every terminating stream satisfies the relaxed
    terminal discipline. -/
lemma streamResponse_terminalOk (ctx : StreamCtx) :
    ∀ (events : List GwEvent) (s : StreamState),
      terminalOk (streamResponse ctx events s).1 := by
  intro events
  induction events with
  | nil =>
    intro s
    right; left
    simp [streamResponse, terminalOk, isTextDoneEv, isErrorEv, isNoAudioEv]
  | cons ev rest ih =>
    intro s
    cases ev with
    | handshake ms => simpa [streamResponse] using ih s
    | delta t =>
      have h := ih (deltaStep ctx t s)
      rcases h with ⟨h1, h2, h3⟩ | ⟨h1, h2, h3⟩ | ⟨h1, h2, h3⟩ <;>
        [left; (right; left); (right; right)] <;>
        simp [streamResponse, List.countP_cons, isTextDoneEv, isErrorEv, isNoAudioEv,
          h1, h2, h3]
    | action a =>
      have h := ih (actionStep ctx s)
      have f1 := flushPending_countP_zero ctx s.actionCount s.pending s.chunksSent
        isTextDoneEv (fun _ _ _ => rfl) rfl
      have f2 := flushPending_countP_zero ctx s.actionCount s.pending s.chunksSent
        isErrorEv (fun _ _ _ => rfl) rfl
      have f3 := flushPending_countP_zero ctx s.actionCount s.pending s.chunksSent
        isNoAudioEv (fun _ _ _ => rfl) rfl
      rcases h with ⟨h1, h2, h3⟩ | ⟨h1, h2, h3⟩ | ⟨h1, h2, h3⟩ <;>
        [left; (right; left); (right; right)] <;>
        simp [streamResponse, List.countP_cons, List.countP_append,
          isTextDoneEv, isErrorEv, isNoAudioEv, h1, h2, h3, f1, f2, f3]
    | text_done r =>
      rcases handleTextDone_terminal ctx r s with h | h
      · left
        simpa [streamResponse] using h
      · right; right
        simpa [streamResponse] using h
    | error m =>
      right; left
      simp [streamResponse, terminalOk, isTextDoneEv, isErrorEv, isNoAudioEv]

/-- C1 counterexample: a streaming request whose gateway answers with an
    empty `text_done` emits the client `text_done` and then, because no
    TTS worker is pending, also `no_audio` — two of the set
    `text_done / error / no_audio` on one stream, not exactly one.  (The
    trace does not depend on the worker, cleaner or file oracles of
    `ctxTriv`.) -/
theorem C1_counterexample :
    (runRequest ctxTriv [GwEvent.text_done (some [])] 0 0).1 =
      [ClientEvent.text_done (some []), ClientEvent.no_audio] ∧
    ¬((runRequest ctxTriv [GwEvent.text_done (some [])] 0 0).1.countP isTextDoneEv +
      (runRequest ctxTriv [GwEvent.text_done (some [])] 0 0).1.countP isErrorEv +
      (runRequest ctxTriv [GwEvent.text_done (some [])] 0 0).1.countP isNoAudioEv
        = 1) := by
  decide

/-- C1 (amended): every request emits exactly one of `text_done`,
    `error`, `no_audio`, except that the no-speakable-text `no_audio` may
    additionally follow the `text_done` of the same request; `text_done`
    and `error` never co-occur, and each occurs at most once. -/
theorem C1_terminal_discipline (ctx : StreamCtx) (events : List GwEvent)
    (ce sc : Nat) : terminalOk (runRequest ctx events ce sc).1 :=
  streamResponse_terminalOk ctx events (freshState ce sc)

lemma flushPending_chunks (ctx : StreamCtx) (t : Nat) :
    ∀ (pend : List Nat) (c : Nat),
      List.Pairwise (· < ·) (audioChunksNP (flushPending ctx t pend c).1) ∧
      (∀ x ∈ audioChunksNP (flushPending ctx t pend c).1,
        c ≤ x ∧ x < (flushPending ctx t pend c).2.2) ∧
      c ≤ (flushPending ctx t pend c).2.2 := by
  intro pend
  induction pend with
  | nil => intro c; simp [flushPending, audioChunksNP]
  | cons i rest ih =>
    intro c
    by_cases hd : ctx.isDone i t
    · rcases herr : (ctx.tts i).err with _ | msg
      · rcases haud : (ctx.tts i).audio with _ | pay
        · simpa only [flushPending, hd, if_true, herr, haud] using ih c
        · obtain ⟨ih1, ih2, ih3⟩ := ih (c + 1)
          refine ⟨?_, ?_, ?_⟩ <;>
            simp only [flushPending, hd, if_true, herr, haud, audioChunksNP,
              List.filterMap_cons, List.pairwise_cons, List.mem_cons]
          · refine ⟨fun y hy => ?_, ih1⟩
            have := (ih2 y hy).1
            omega
          · rintro x (rfl | hx)
            · have := ih3; omega
            · have := ih2 x hx; omega
          · omega
      · simpa only [flushPending, hd, if_true, herr, audioChunksNP,
          List.filterMap_cons] using ih c
    · simp [flushPending, hd, audioChunksNP]

lemma drainPending_chunks (ctx : StreamCtx) (cs total : Nat) :
    ∀ (pend : List Nat) (i : Nat),
      List.Pairwise (· < ·) (audioChunksNP (drainPending ctx cs total pend i)) ∧
      (∀ x ∈ audioChunksNP (drainPending ctx cs total pend i), cs + i ≤ x) := by
  intro pend
  induction pend with
  | nil => intro i; simp [drainPending, audioChunksNP]
  | cons taskId rest ih =>
    intro i
    rcases herr : (ctx.tts taskId).err with _ | msg
    · rcases haud : (ctx.tts taskId).audio with _ | pay
      · have hstep : drainPending ctx cs total (taskId :: rest) i =
            drainPending ctx cs total rest (i + 1) := by
          simp [drainPending, herr, haud]
        obtain ⟨ih1, ih2⟩ := ih (i + 1)
        rw [hstep]
        exact ⟨ih1, fun x hx => by have := ih2 x hx; omega⟩
      · have hstep : drainPending ctx cs total (taskId :: rest) i =
            ClientEvent.audio pay (cs + i) (TotalField.val total) ::
              drainPending ctx cs total rest (i + 1) := by
          simp [drainPending, herr, haud]
        obtain ⟨ih1, ih2⟩ := ih (i + 1)
        rw [hstep]
        simp only [audioChunksNP, List.filterMap_cons, List.pairwise_cons,
          List.mem_cons]
        refine ⟨⟨fun y hy => ?_, ih1⟩, ?_⟩
        · have := ih2 y hy; omega
        · rintro x (rfl | hx)
          · omega
          · have := ih2 x hx; omega
    · have hstep : drainPending ctx cs total (taskId :: rest) i =
          [ClientEvent.tts_error] := by
        simp [drainPending, herr]
      rw [hstep]
      simp [audioChunksNP]

lemma flushPending_ptChunks (ctx : StreamCtx) (t : Nat) (pend : List Nat) (c : Nat) :
    ptChunks (flushPending ctx t pend c).1 = [] := by
  rw [ptChunks, List.filterMap_eq_nil]
  intro e he
  rcases flushPending_mem ctx t pend c e he with ⟨p, ch, rfl⟩ | rfl <;> rfl

lemma drainPending_ptChunks (ctx : StreamCtx) (cs total : Nat) (pend : List Nat)
    (i : Nat) : ptChunks (drainPending ctx cs total pend i) = [] := by
  rw [ptChunks, List.filterMap_eq_nil]
  intro e he
  rcases drainPending_mem ctx cs total pend i e he with ⟨p, ch, rfl⟩ | rfl <;> rfl

lemma audioChunksNP_nil : audioChunksNP [] = [] := rfl

lemma audioChunksNP_append (l1 l2 : List ClientEvent) :
    audioChunksNP (l1 ++ l2) = audioChunksNP l1 ++ audioChunksNP l2 := by
  simp [audioChunksNP]

lemma audioChunksNP_cons_delta (t : List Char) (l : List ClientEvent) :
    audioChunksNP (ClientEvent.delta t :: l) = audioChunksNP l := by
  simp [audioChunksNP]

lemma audioChunksNP_cons_action (a : Nat) (l : List ClientEvent) :
    audioChunksNP (ClientEvent.action a :: l) = audioChunksNP l := by
  simp [audioChunksNP]

lemma audioChunksNP_cons_td (r : Option (List Char)) (l : List ClientEvent) :
    audioChunksNP (ClientEvent.text_done r :: l) = audioChunksNP l := by
  simp [audioChunksNP]

lemma audioChunksNP_cons_sr (o n : Nat) (rr : List Char) (l : List ClientEvent) :
    audioChunksNP (ClientEvent.session_reset o n rr :: l) = audioChunksNP l := by
  simp [audioChunksNP]

lemma audioChunksNP_cons_na (l : List ClientEvent) :
    audioChunksNP (ClientEvent.no_audio :: l) = audioChunksNP l := by
  simp [audioChunksNP]

lemma audioChunksNP_cons_tts (l : List ClientEvent) :
    audioChunksNP (ClientEvent.tts_error :: l) = audioChunksNP l := by
  simp [audioChunksNP]

lemma audioChunksNP_cons_err (m : List Char) (l : List ClientEvent) :
    audioChunksNP (ClientEvent.error m :: l) = audioChunksNP l := by
  simp [audioChunksNP]

lemma audioChunksNP_cons_pt (p : List Char) (ch : Nat) (l : List ClientEvent) :
    audioChunksNP (ClientEvent.audio p ch TotalField.absent :: l) =
      audioChunksNP l := by
  simp [audioChunksNP]

lemma ptChunks_nil : ptChunks [] = [] := rfl

lemma ptChunks_append (l1 l2 : List ClientEvent) :
    ptChunks (l1 ++ l2) = ptChunks l1 ++ ptChunks l2 := by
  simp [ptChunks]

lemma ptChunks_cons_delta (t : List Char) (l : List ClientEvent) :
    ptChunks (ClientEvent.delta t :: l) = ptChunks l := by simp [ptChunks]

lemma ptChunks_cons_action (a : Nat) (l : List ClientEvent) :
    ptChunks (ClientEvent.action a :: l) = ptChunks l := by simp [ptChunks]

lemma ptChunks_cons_td (r : Option (List Char)) (l : List ClientEvent) :
    ptChunks (ClientEvent.text_done r :: l) = ptChunks l := by simp [ptChunks]

lemma ptChunks_cons_sr (o n : Nat) (rr : List Char) (l : List ClientEvent) :
    ptChunks (ClientEvent.session_reset o n rr :: l) = ptChunks l := by
  simp [ptChunks]

lemma ptChunks_cons_na (l : List ClientEvent) :
    ptChunks (ClientEvent.no_audio :: l) = ptChunks l := by simp [ptChunks]

lemma ptChunks_cons_tts (l : List ClientEvent) :
    ptChunks (ClientEvent.tts_error :: l) = ptChunks l := by simp [ptChunks]

lemma ptChunks_cons_err (m : List Char) (l : List ClientEvent) :
    ptChunks (ClientEvent.error m :: l) = ptChunks l := by simp [ptChunks]

lemma ptChunks_cons_pt (p : List Char) (ch : Nat) (l : List ClientEvent) :
    ptChunks (ClientEvent.audio p ch TotalField.absent :: l) = ch :: ptChunks l := by
  simp [ptChunks]

lemma handleTextDone_chunks (ctx : StreamCtx) (r : Option (List Char))
    (s : StreamState) :
    List.Pairwise (· < ·) (audioChunksNP (handleTextDone ctx r s).1) ∧
    (∀ x ∈ audioChunksNP (handleTextDone ctx r s).1, s.chunksSent ≤ x) ∧
    (∀ x ∈ ptChunks (handleTextDone ctx r s).1, x = 0) := by
  simp only [handleTextDone]
  refine ⟨?_, ?_, ?_⟩ <;>
  · repeat' split
    all_goals
      simp only [audioChunksNP_cons_td, audioChunksNP_cons_sr, audioChunksNP_cons_na,
        audioChunksNP_cons_tts, audioChunksNP_cons_pt, audioChunksNP_append,
        audioChunksNP_nil, ptChunks_cons_td, ptChunks_cons_sr, ptChunks_cons_na,
        ptChunks_cons_tts, ptChunks_cons_pt, ptChunks_append, ptChunks_nil,
        List.nil_append, List.cons_append, drainPending_ptChunks]
    all_goals
      first
      | exact (drainPending_chunks ctx s.chunksSent _ _ 0).1
      | (intro x hx
         first
         | (have hdc := (drainPending_chunks ctx s.chunksSent _ _ 0).2 x hx; omega)
         | simp_all)
      | simp

lemma streamResponse_chunks (ctx : StreamCtx) :
    ∀ (events : List GwEvent) (s : StreamState),
      List.Pairwise (· < ·) (audioChunksNP (streamResponse ctx events s).1) ∧
      (∀ x ∈ audioChunksNP (streamResponse ctx events s).1, s.chunksSent ≤ x) ∧
      (∀ x ∈ ptChunks (streamResponse ctx events s).1, x = 0) := by
  intro events
  induction events with
  | nil =>
    intro s
    simp [streamResponse, audioChunksNP, ptChunks]
  | cons ev rest ih =>
    intro s
    cases ev with
    | handshake ms => simpa [streamResponse] using ih s
    | delta t =>
      obtain ⟨h1, h2, h3⟩ := ih (deltaStep ctx t s)
      have hcs : (deltaStep ctx t s).chunksSent = s.chunksSent := rfl
      rw [hcs] at h2
      simp only [streamResponse, audioChunksNP_cons_delta, ptChunks_cons_delta]
      exact ⟨h1, h2, h3⟩
    | action a =>
      obtain ⟨h1, h2, h3⟩ := ih (actionStep ctx s)
      have hcs : (actionStep ctx s).chunksSent =
          (flushPending ctx s.actionCount s.pending s.chunksSent).2.2 := rfl
      rw [hcs] at h2
      obtain ⟨f1, f2, f3⟩ := flushPending_chunks ctx s.actionCount s.pending s.chunksSent
      simp only [streamResponse, audioChunksNP_append, audioChunksNP_cons_action,
        ptChunks_append, ptChunks_cons_action,
        flushPending_ptChunks ctx s.actionCount s.pending s.chunksSent]
      refine ⟨?_, ?_, ?_⟩
      · rw [List.pairwise_append]
        refine ⟨f1, h1, fun x hx y hy => ?_⟩
        have hb1 := (f2 x hx).2
        have hb2 := h2 y hy
        omega
      · intro x hx
        rcases List.mem_append.mp hx with hx | hx
        · exact (f2 x hx).1
        · have := h2 x hx
          omega
      · simpa using h3
    | text_done r => exact handleTextDone_chunks ctx r s
    | error m =>
      simp [streamResponse, audioChunksNP, ptChunks]

/-- C3 counterexample: two sentences are fired mid-stream; the first
    worker yields no audio (empty cleaned text or a worker that missed the
    30-second drain wait), the second yields audio.  The drain computes
    `chunk = chunks_sent + i` from the loop index, so the only audio event
    of the request carries `chunk = 1`: the chunk sequence does not start
    from 0. -/
theorem C3_counterexample :
    audioChunksNP (runRequest ctxC3
      [GwEvent.delta deltaC3, GwEvent.delta deltaC3,
       GwEvent.text_done (some "ok".toList)] 0 0).1 = [1] ∧
    ¬(audioChunksNP (runRequest ctxC3
        [GwEvent.delta deltaC3, GwEvent.delta deltaC3,
         GwEvent.text_done (some "ok".toList)] 0 0).1).head? = some 0 := by
  decide

/-- C3 (amended): within one request the `chunk` fields of the
    action-flush and drain audio events are strictly monotonically
    increasing (but may skip indices, so they need not start from 0), and
    the agent-file-path passthrough audio event always carries
    `chunk = 0`. -/
theorem C3_chunk_monotonic (ctx : StreamCtx) (events : List GwEvent)
    (ce sc : Nat) :
    List.Pairwise (· < ·) (audioChunksNP (runRequest ctx events ce sc).1) ∧
    (∀ x ∈ ptChunks (runRequest ctx events ce sc).1, x = 0) :=
  ⟨(streamResponse_chunks ctx events (freshState ce sc)).1,
   (streamResponse_chunks ctx events (freshState ce sc)).2.2⟩

/-- C5 counterexample: for `message = "__session_start__"` with the
    gateway answering `text_done("NO")`, the client trace is NOT
    `handshake, text_done, no_audio`: the streaming loop never forwards a
    handshake event and the sentinel suppression path yields only
    `no_audio` without any client `text_done`. -/
theorem C5_counterexample :
    (runRequest ctxC5 [GwEvent.handshake 5, GwEvent.text_done (some "NO".toList)]
      0 0).1 = [ClientEvent.no_audio] ∧
    (runRequest ctxC5 [GwEvent.handshake 5, GwEvent.text_done (some "NO".toList)]
      0 0).1.countP isTextDoneEv = 0 := by
  decide

/-- C5 (amended): for the `__session_start__` sentinel with a gateway
    `text_done("NO")`, the emitted client trace is exactly `no_audio` —
    holding for every TTS worker, cleaner and file oracle, so no TTS is
    invoked and no audio is emitted; the handshake is consumed into
    metrics rather than forwarded. -/
theorem C5_sentinel_trace (tts : Nat → TTSResult) (isDone : Nat → Nat → Bool)
    (clean : List Char → List Char) (fileBytes : List Char → Option (List Nat))
    (ms ce sc : Nat) :
    (runRequest (ctxSentinel tts isDone clean fileBytes)
      [GwEvent.handshake ms, GwEvent.text_done (some "NO".toList)] ce sc).1 =
      [ClientEvent.no_audio] := by
  rfl

lemma boundaryShape_cons (c : Char) (rest : List Char) (j : Nat) :
    boundaryShape (c :: rest) (j + 1) ↔ boundaryShape rest j := by
  simp [boundaryShape, List.get?_cons_succ]

lemma boundaryShape_head (c : Char) (rest : List Char) :
    boundaryShape (c :: rest) 0 ↔
      ((c = '.' ∨ c = '!' ∨ c = '?') ∧ (rest = [] ∨ rest.head? = some ' ')) := by
  cases rest with
  | nil => simp [boundaryShape]
  | cons d tl => simp [boundaryShape]

lemma findBoundary_some (min_len : Nat) :
    ∀ (l : List Char) (i0 j : Nat),
      boundaryShape l j → min_len ≤ i0 + j + 1 →
      (∀ j' < j, ¬(boundaryShape l j' ∧ min_len ≤ i0 + j' + 1)) →
      findBoundary min_len l i0 = some (i0 + j + 1) := by
  intro l
  induction l with
  | nil =>
    intro i0 j hb _ _
    rcases hb with ⟨h1, _⟩
    rcases h1 with h1 | h1 | h1 <;> simp at h1
  | cons c rest ih =>
    intro i0 j hb hm hmin
    cases j with
    | zero =>
      obtain ⟨h1, h2⟩ := (boundaryShape_head c rest).mp hb
      have hcond : (c = '.' ∨ c = '!' ∨ c = '?') ∧
          (rest = [] ∨ rest.head? = some ' ') ∧ min_len ≤ i0 + 1 :=
        ⟨h1, h2, by omega⟩
      simp [findBoundary, hcond]
    | succ j' =>
      have hcond : ¬((c = '.' ∨ c = '!' ∨ c = '?') ∧
          (rest = [] ∨ rest.head? = some ' ') ∧ min_len ≤ i0 + 1) := by
        rintro ⟨hc1, hc2, hc3⟩
        exact hmin 0 (Nat.succ_pos j')
          ⟨(boundaryShape_head c rest).mpr ⟨hc1, hc2⟩, by omega⟩
      have hrec := ih (i0 + 1) j' ((boundaryShape_cons c rest j').mp hb)
        (by omega)
        (fun k hk hcontra => hmin (k + 1) (by omega)
          ⟨(boundaryShape_cons c rest k).mpr hcontra.1, by omega⟩)
      simp only [findBoundary, if_neg hcond]
      rw [hrec]
      congr 1
      omega

lemma findBoundary_none (min_len : Nat) :
    ∀ (l : List Char) (i0 : Nat),
      (∀ j, ¬(boundaryShape l j ∧ min_len ≤ i0 + j + 1)) →
      findBoundary min_len l i0 = none := by
  intro l
  induction l with
  | nil => intro i0 _; simp [findBoundary]
  | cons c rest ih =>
    intro i0 h
    have hcond : ¬((c = '.' ∨ c = '!' ∨ c = '?') ∧
        (rest = [] ∨ rest.head? = some ' ') ∧ min_len ≤ i0 + 1) := by
      rintro ⟨hc1, hc2, hc3⟩
      exact h 0 ⟨(boundaryShape_head c rest).mpr ⟨hc1, hc2⟩, by omega⟩
    simp only [findBoundary, if_neg hcond]
    exact ih (i0 + 1) (fun k hcontra =>
      h (k + 1) ⟨(boundaryShape_cons c rest k).mpr hcontra.1, by omega⟩)

/-- C2 counterexample: the spec says a terminator followed by whitespace
    qualifies as a boundary, but the code regex `[.!?](?= |\Z)` accepts
    only a space or end-of-string.  A 41-character buffer whose qualifying
    terminator (per the claim) is followed by a newline extracts nothing
    and is left unchanged. -/
theorem C2_counterexample :
    ((List.replicate 39 'a' ++ ['.', '\n']).get? 39 = some '.' ∧
     (List.replicate 39 'a' ++ ['.', '\n']).get? 40 = some '\n' ∧
     isPySpace '\n' = true ∧
     40 ≤ (List.replicate 39 'a' ++ ['.', '\n']).length) ∧
    _extract_sentence (List.replicate 39 'a' ++ ['.', '\n']) 40 =
      (none, List.replicate 39 'a' ++ ['.', '\n']) := by
  decide

/-- C2 (amended): with min_sentence = 40, the extractor (i) extracts
    nothing from buffers shorter than 40 characters, (ii) at the leftmost
    terminator followed by a space or end-of-buffer whose end index is at
    least 40 returns the stripped prefix and the left-trimmed remainder,
    (iii) extracts nothing when no such boundary exists, and (iv) the
    delta transition fires no TTS worker while the buffer has an open
    `[` tag or an odd number of code fences. -/
theorem C2_extract_sentence_spec :
    (∀ l : List Char, l.length < 40 → _extract_sentence l 40 = (none, l)) ∧
    (∀ (l : List Char) (j : Nat), boundaryShape l j → 40 ≤ j + 1 →
      (∀ j' < j, ¬(boundaryShape l j' ∧ 40 ≤ j' + 1)) →
      _extract_sentence l 40 =
        (some (pstrip (l.take (j + 1))), plstrip (l.drop (j + 1)))) ∧
    (∀ l : List Char, (∀ j, ¬(boundaryShape l j ∧ 40 ≤ j + 1)) →
      _extract_sentence l 40 = (none, l)) ∧
    (∀ (ctx : StreamCtx) (s : StreamState) (t : List Char),
      _has_open_tag (s.buf ++ t) = true →
      (streamResponse ctx [GwEvent.delta t] s).2.pending = s.pending ∧
      (streamResponse ctx [GwEvent.delta t] s).2.nextTask = s.nextTask ∧
      (streamResponse ctx [GwEvent.delta t] s).2.buf = s.buf ++ t) := by
  refine ⟨?_, ?_, ?_, ?_⟩
  · intro l hl
    simp [_extract_sentence, hl]
  · intro l j hb hj hmin
    have hjlen : j < l.length := by
      rcases hb.1 with h | h | h <;>
        exact List.get?_eq_some.mp h |>.1
    have hlen : ¬(l.length < 40) := by omega
    have hfb := findBoundary_some 40 l 0 j hb (by omega)
      (fun k hk hcontra => hmin k hk ⟨hcontra.1, by omega⟩)
    simp only [_extract_sentence, if_neg hlen]
    rw [show (0 + j + 1) = j + 1 by omega] at hfb
    rw [hfb]
  · intro l h
    have hfb := findBoundary_none 40 l 0
      (fun k hcontra => h k ⟨hcontra.1, by omega⟩)
    by_cases hlen : l.length < 40
    · simp [_extract_sentence, hlen]
    · simp only [_extract_sentence, if_neg hlen]
      rw [hfb]
  · intro ctx s t hopen
    refine ⟨?_, ?_, ?_⟩ <;>
      simp [streamResponse, deltaStep, hopen]

/-- Witness for C2: the amended characterisation applied to a concrete
    41-character buffer with its boundary at index 39. -/
theorem C2_extract_sentence_spec_witness :
    _extract_sentence (List.replicate 39 'a' ++ ['.', ' ', 'b']) 40 =
      (some (List.replicate 39 'a' ++ ['.']), ['b']) := by
  rw [C2_extract_sentence_spec.2.1 (List.replicate 39 'a' ++ ['.', ' ', 'b']) 39
    (by decide) (by decide) (by decide)]
  decide

lemma pstrip_eq_nil_iff (l : List Char) :
    pstrip l = [] ↔ ∀ c ∈ l, isPySpace c = true := by
  unfold pstrip prstrip plstrip
  rw [List.reverse_eq_nil_iff, List.dropWhile_eq_nil_iff]
  constructor
  · intro h c hc
    by_cases hcs : isPySpace c = true
    · exact hcs
    · exfalso
      have hcmem : c ∈ l.dropWhile isPySpace := by
        have : l = l.takeWhile isPySpace ++ l.dropWhile isPySpace :=
          (List.takeWhile_append_dropWhile isPySpace l).symm
        rw [this] at hc
        rcases List.mem_append.mp hc with hmem | hmem
        · exact absurd (List.mem_takeWhile_imp hmem) hcs
        · exact hmem
      exact hcs (h c (by simpa using hcmem))
  · intro h c hc
    exact h c (List.dropWhile_subset isPySpace (by simpa using hc))

lemma pyRfind_of_all_space (needle : Char) (hn : isPySpace needle = false)
    (l : List Char) (h : ∀ c ∈ l, isPySpace c = true) :
    pyRfind needle l = -1 := by
  unfold pyRfind
  have : l.reverse.findIdx? (· = needle) = none := by
    rw [List.findIdx?_eq_none_iff]
    intro x hx
    have := h x (List.mem_reverse.mp hx)
    simp only [decide_eq_false_iff_not]
    rintro rfl
    rw [this] at hn
    simp at hn
  rw [this]

lemma truncate_of_ws (t : List Char) (m : Nat) (h : pstrip t = []) :
    pstrip (_truncate_at_sentence t m) = [] := by
  have hall := (pstrip_eq_nil_iff t).mp h
  unfold _truncate_at_sentence
  split
  · exact h
  · have hchunk : ∀ c ∈ t.take m, isPySpace c = true :=
      fun c hc => hall c (List.mem_of_mem_take hc)
    have h1 := pyRfind_of_all_space '.' (by decide) (t.take m) hchunk
    have h2 := pyRfind_of_all_space '!' (by decide) (t.take m) hchunk
    have h3 := pyRfind_of_all_space '?' (by decide) (t.take m) hchunk
    simp only [h1, h2, h3, max_self]
    norm_num
    rw [(pstrip_eq_nil_iff (t.take m)).mpr hchunk]
    rfl

lemma truncResp_emptyOrWS (ctx : StreamCtx) (r : Option (List Char))
    (h : emptyOrWS r) : emptyOrWS (truncResp ctx r) := by
  rcases r with _ | t
  · simp [truncResp, emptyOrWS]
  · simp only [truncResp]
    split
    · rcases hm : ctx.maxResponseChars with _ | m
      · simpa [emptyOrWS] using h
      · simpa [emptyOrWS] using truncate_of_ws t m h
    · simpa [emptyOrWS] using h

lemma isNoYes_of_ws (t : List Char) (h : pstrip t = []) : isNoYes t = false := by
  simp only [isNoYes, h]
  decide

lemma hasSub_marker_ws (t : List Char) (h : ∀ c ∈ t, isPySpace c = true) :
    hasSub sessionResetMarker t = false := by
  induction t with
  | nil => decide
  | cons c rest ih =>
    have hc : c ≠ '[' := by
      intro heq
      subst heq
      exact absurd (h '[' (by simp)) (by decide)
    have hmk : sessionResetMarker = '[' :: "SESSION_RESET]".toList := by decide
    simp only [hasSub, Bool.or_eq_false_iff]
    refine ⟨?_, ih (fun x hx => h x (List.mem_cons_of_mem c hx))⟩
    rw [hmk]
    simp only [List.isPrefixOf, Bool.and_eq_false_iff]
    left
    simpa using fun heq => hc heq.symm

lemma isTmpPath_of_empty (r1 : Option (List Char)) (h : emptyOrWS r1) :
    isTmpPath (pstrip (r1.getD [])) = false := by
  rcases r1 with _ | t
  · decide
  · simp only [emptyOrWS] at h
    simp only [Option.getD_some, h]
    decide

lemma handleTextDone_empty (ctx : StreamCtx) (r : Option (List Char))
    (s : StreamState) (h : emptyOrWS (truncResp ctx r)) (hbuf : s.buf = [])
    (hpend : s.pending = []) :
    ((handleTextDone ctx r s).2.consecutiveEmpty =
       if 3 ≤ s.consecutiveEmpty + 1 then 0 else s.consecutiveEmpty + 1) ∧
    ((handleTextDone ctx r s).2.sessionCounter =
       if 3 ≤ s.consecutiveEmpty + 1 then s.sessionCounter + 1 else s.sessionCounter) ∧
    (∃ tail, (handleTextDone ctx r s).1 =
       ClientEvent.text_done (truncResp ctx r) ::
         (if 3 ≤ s.consecutiveEmpty + 1 then
            [ClientEvent.session_reset s.sessionCounter (s.sessionCounter + 1)
              "consecutive_empty".toList]
          else []) ++ tail ∧
       tail.countP isSessionResetEv = 0) := by
  have hEmptyB : (match truncResp ctx r with
      | none => true
      | some t => (pstrip t).isEmpty) = true := by
    rcases hr : truncResp ctx r with _ | t
    · rfl
    · rw [hr] at h
      simp only [emptyOrWS] at h
      simp [h]
  have hSent : ¬(ctx.userMessage.take 2 = "__".toList ∧
      respTruthy (truncResp ctx r) = true ∧
      isNoYes ((truncResp ctx r).getD []) = true) := by
    rintro ⟨-, htr, hny⟩
    rcases hr : truncResp ctx r with _ | t
    · rw [hr] at htr
      simp [respTruthy] at htr
    · rw [hr] at h hny
      simp only [emptyOrWS] at h
      rw [Option.getD_some, isNoYes_of_ws t h] at hny
      simp at hny
  have hMarkB : (match truncResp ctx r with
      | some t => hasSub sessionResetMarker t
      | none => false) = false := by
    rcases hr : truncResp ctx r with _ | t
    · rfl
    · rw [hr] at h
      simp only [emptyOrWS] at h
      exact hasSub_marker_ws t ((pstrip_eq_nil_iff t).mp h)
  have hTmpB := isTmpPath_of_empty (truncResp ctx r) h
  have hps : pstrip ([] : List Char) = [] := rfl
  have hPath : ¬(respTruthy (truncResp ctx r) = true ∧
      isTmpPath (pstrip ((truncResp ctx r).getD [])) = true) := by
    rintro ⟨-, hx⟩
    rw [hTmpB] at hx
    exact Bool.false_ne_true hx
  simp only [handleTextDone, if_neg hSent, hEmptyB, hMarkB, Bool.false_eq_true,
    if_false, hbuf, hpend, hps, List.isEmpty_nil, Bool.not_true, List.nil_append,
    true_and, if_neg hPath, Bool.true_and]
  by_cases hFB : (respTruthy (truncResp ctx r) &&
      (!(ctx.clean ((truncResp ctx r).getD [])).isEmpty &&
        !(pstrip (ctx.clean ((truncResp ctx r).getD []))).isEmpty)) = true
  · simp only [hFB, if_true]
    refine ⟨by simp, by simp, ?_⟩
    refine ⟨_, rfl, ?_⟩
    exact drainPending_countP_zero _ _ _ _ _ _ (fun _ _ _ => rfl) rfl
  · simp only [hFB, if_false]
    refine ⟨by simp, by simp, ?_⟩
    refine ⟨_, rfl, ?_⟩
    decide

lemma handleTextDone_nonempty_ce (ctx : StreamCtx) (r : Option (List Char))
    (s : StreamState) (hne : ¬ emptyOrWS (truncResp ctx r))
    (hSent : ¬(ctx.userMessage.take 2 = "__".toList ∧
      respTruthy (truncResp ctx r) = true ∧
      isNoYes ((truncResp ctx r).getD []) = true)) :
    (handleTextDone ctx r s).2.consecutiveEmpty = 0 := by
  have hEmptyF : (match truncResp ctx r with
      | none => true
      | some t => (pstrip t).isEmpty) = false := by
    rcases hr : truncResp ctx r with _ | t
    · rw [hr] at hne
      simp [emptyOrWS] at hne
    · rw [hr] at hne
      simp only [emptyOrWS] at hne
      simpa using hne
  simp only [handleTextDone, if_neg hSent, hEmptyF, Bool.false_eq_true, false_and,
    if_false]
  repeat' split
  all_goals simp

/-- C4 (confirmed): the consecutive-empty policy of the streaming
    orchestrator.  (i) For a request terminated by an empty-or-whitespace
    `text_done`: the module counter is incremented, and when it reaches 3
    the voice session is bumped (counter reset to 0, session counter
    incremented) and a `session_reset` event with reason
    `consecutive_empty` is emitted immediately after the terminal
    `text_done`; below the threshold no `session_reset` event is emitted.
    (ii) Any non-sentinel `text_done` whose (truncated) response is
    non-empty resets the counter to 0.  (iii) `bump_voice_session` always
    resets the counter to 0. -/
theorem C4_consecutive_empty_policy :
    (∀ (ctx : StreamCtx) (r : Option (List Char)) (ce sc : Nat),
      emptyOrWS r →
      ((runRequest ctx [GwEvent.text_done r] ce sc).2.consecutiveEmpty =
         (if 3 ≤ ce + 1 then 0 else ce + 1)) ∧
      ((runRequest ctx [GwEvent.text_done r] ce sc).2.sessionCounter =
         (if 3 ≤ ce + 1 then sc + 1 else sc)) ∧
      (3 ≤ ce + 1 →
        (runRequest ctx [GwEvent.text_done r] ce sc).1.take 2 =
          [ClientEvent.text_done (truncResp ctx r),
           ClientEvent.session_reset sc (sc + 1) "consecutive_empty".toList]) ∧
      (¬ 3 ≤ ce + 1 →
        (runRequest ctx [GwEvent.text_done r] ce sc).1.countP
          isSessionResetEv = 0)) ∧
    (∀ (ctx : StreamCtx) (r : Option (List Char)) (ce sc : Nat),
      ¬ emptyOrWS (truncResp ctx r) →
      ¬(ctx.userMessage.take 2 = "__".toList ∧
        respTruthy (truncResp ctx r) = true ∧
        isNoYes ((truncResp ctx r).getD []) = true) →
      (runRequest ctx [GwEvent.text_done r] ce sc).2.consecutiveEmpty = 0) ∧
    (∀ (fs : CounterFS) (mem : SessionMem) (res : Nat × SessionMem),
      bump_voice_session fs mem = Except.ok res → res.2.consecutiveEmpty = 0) := by
  refine ⟨?_, ?_, ?_⟩
  · intro ctx r ce sc hr
    have heq : runRequest ctx [GwEvent.text_done r] ce sc =
        handleTextDone ctx r (freshState ce sc) := rfl
    obtain ⟨h1, h2, tail, htr, hcnt⟩ :=
      handleTextDone_empty ctx r (freshState ce sc)
        (truncResp_emptyOrWS ctx r hr) rfl rfl
    simp only [show (freshState ce sc).consecutiveEmpty = ce from rfl,
      show (freshState ce sc).sessionCounter = sc from rfl] at h1 h2 htr
    rw [heq]
    refine ⟨h1, h2, ?_, ?_⟩
    · intro h3
      rw [htr, if_pos h3]
      rfl
    · intro h3
      rw [htr, if_neg h3]
      simp [isSessionResetEv, hcnt]
  · intro ctx r ce sc hne hSent
    exact handleTextDone_nonempty_ce ctx r (freshState ce sc) hne hSent
  · intro fs mem res hok
    by_cases hw : fs.writeOk <;>
      rcases hread : fs.read with n | _ | _ | _ <;>
        simp [bump_voice_session, _save_session_counter, hread, hw] at hok <;>
        (try rw [← hok]) <;> rfl

/-- Witness for C4: a concrete third-consecutive-empty request (whitespace
    response, counter at 2, session 7) bumps to session 8, resets the
    counter and places the `session_reset` right after the `text_done`;
    and a concrete successful bump resets the counter. -/
theorem C4_consecutive_empty_policy_witness :
    (runRequest ctxTriv [GwEvent.text_done (some [' '])] 2 7).2.consecutiveEmpty
        = 0 ∧
    (runRequest ctxTriv [GwEvent.text_done (some [' '])] 2 7).2.sessionCounter
        = 8 ∧
    (runRequest ctxTriv [GwEvent.text_done (some [' '])] 2 7).1.take 2 =
      [ClientEvent.text_done (some [' ']),
       ClientEvent.session_reset 7 8 "consecutive_empty".toList] ∧
    (∀ res, bump_voice_session ⟨ReadResult.ok 6, true⟩ ⟨none, 5⟩ =
      Except.ok res → res.2.consecutiveEmpty = 0) := by
  have h := C4_consecutive_empty_policy.1 ctxTriv (some [' ']) 2 7 (by decide)
  refine ⟨?_, ?_, ?_, ?_⟩
  · rw [h.1]; decide
  · rw [h.2.1]; decide
  · rw [h.2.2.1 (by norm_num)]; decide
  · intro res hok
    exact C4_consecutive_empty_policy.2.2 ⟨ReadResult.ok 6, true⟩ ⟨none, 5⟩ res hok

/-- C7 counterexample: the requested gateway `"x"` is registered but
    unconfigured while the default `"openclaw"` is registered and
    configured; the claim predicts a fallback to the default, but the
    router puts one error event on the queue and delegates to nothing. -/
theorem C7_counterexample :
    gm_stream_to_queue regC7 (some "x") = ([QueueEvent.error], none) ∧
    lookupGw regC7 "openclaw" = some ⟨true⟩ ∧
    lookupGw regC7 "x" = some ⟨false⟩ := by
  decide

/-- C7 (amended): the router falls back to the `openclaw` default only
    when the named gateway is NOT REGISTERED; a registered-but-unconfigured
    gateway (named or default) yields exactly one error event and no
    delegation — in particular no `text_done` is ever produced by the
    manager itself; a configured selection delegates with no error
    events. -/
theorem C7_routing_fallback :
    (∀ (reg : List (String × GatewayM)) (gid : String),
      gid ≠ "" → lookupGw reg gid = none →
      gm_stream_to_queue reg (some gid) = gm_stream_to_queue reg none) ∧
    (∀ (reg : List (String × GatewayM)) (gid : String) (g : GatewayM),
      gid ≠ "" → lookupGw reg gid = some g →
      gm_stream_to_queue reg (some gid) =
        (if g.configured then ([], some gid) else ([QueueEvent.error], none))) ∧
    (∀ (reg : List (String × GatewayM)) (g : GatewayM),
      lookupGw reg "openclaw" = some g →
      gm_stream_to_queue reg none =
        (if g.configured then ([], some "openclaw")
         else ([QueueEvent.error], none))) ∧
    (∀ reg : List (String × GatewayM),
      lookupGw reg "openclaw" = none →
      gm_stream_to_queue reg none = ([QueueEvent.error], none)) := by
  refine ⟨?_, ?_, ?_, ?_⟩
  · intro reg gid hne hnone
    rcases ho : lookupGw reg "openclaw" with _ | g <;>
      simp [gm_stream_to_queue, hne, hnone, ho]
  · intro reg gid g hne hsome
    rcases hc : g.configured <;> simp [gm_stream_to_queue, hne, hsome, hc]
  · intro reg g hsome
    rcases hc : g.configured <;> simp [gm_stream_to_queue, hsome, hc]
  · intro reg hnone
    simp [gm_stream_to_queue, hnone]

/-- Witness for C7: concrete routing through the amended
    characterisation — the unconfigured registered gateway errors, and an
    unregistered id falls back to the configured default. -/
theorem C7_routing_fallback_witness :
    gm_stream_to_queue regC7 (some "x") = ([QueueEvent.error], none) ∧
    gm_stream_to_queue regC7 (some "y") = ([], some "openclaw") := by
  constructor
  · rw [C7_routing_fallback.2.1 regC7 "x" ⟨false⟩ (by decide) (by decide)]
    decide
  · rw [C7_routing_fallback.1 regC7 "y" (by decide) (by decide),
      C7_routing_fallback.2.2.1 regC7 ⟨true⟩ (by decide)]
    decide

/-- C9 counterexample: a failing counter-file write is not recovered —
    `_save_session_counter` has no handler, so `bump_voice_session`
    raises instead of falling back to the in-memory counter. -/
theorem C9_counterexample :
    bump_voice_session ⟨ReadResult.ok 6, false⟩ ⟨none, 0⟩ = Except.error () ∧
    _save_session_counter ⟨ReadResult.ok 6, false⟩ 7 = Except.error () :=
  ⟨rfl, rfl⟩

/-- C9 (amended): read errors the code anticipates (missing file, bad
    content) are recovered with the default counter 6, and a cached key is
    served without touching the file; but a write failure propagates out
    of `bump_voice_session` (and out of an uncached read that persists the
    default), and a raw read I/O error propagates too. -/
theorem C9_session_store_errors :
    (∀ (fs : CounterFS) (mem : SessionMem) (k : Nat), mem.cache = some k →
      get_voice_session_key fs mem = Except.ok (k, mem)) ∧
    (∀ (fs : CounterFS) (mem : SessionMem) (n : Nat), mem.cache = none →
      fs.read = ReadResult.ok n →
      get_voice_session_key fs mem = Except.ok (n, { mem with cache := some n })) ∧
    (∀ (fs : CounterFS) (mem : SessionMem), mem.cache = none →
      fs.writeOk = true →
      (fs.read = ReadResult.notFound ∨ fs.read = ReadResult.badContent) →
      get_voice_session_key fs mem = Except.ok (6, { mem with cache := some 6 })) ∧
    (∀ (fs : CounterFS) (mem : SessionMem), mem.cache = none →
      fs.writeOk = false →
      (fs.read = ReadResult.notFound ∨ fs.read = ReadResult.badContent) →
      get_voice_session_key fs mem = Except.error ()) ∧
    (∀ (fs : CounterFS) (mem : SessionMem), fs.writeOk = false →
      bump_voice_session fs mem = Except.error ()) ∧
    (∀ (fs : CounterFS) (mem : SessionMem), fs.writeOk = true →
      fs.read ≠ ReadResult.ioError →
      ∃ n, bump_voice_session fs mem =
        Except.ok (n + 1, ⟨some (n + 1), 0⟩)) ∧
    (∀ (fs : CounterFS) (mem : SessionMem), fs.read = ReadResult.ioError →
      bump_voice_session fs mem = Except.error ()) := by
  refine ⟨?_, ?_, ?_, ?_, ?_, ?_, ?_⟩
  · intro fs mem k hk
    simp [get_voice_session_key, hk]
  · intro fs mem n hc hr
    simp [get_voice_session_key, hc, hr]
  · intro fs mem hc hw hr
    rcases hr with hr | hr <;>
      simp [get_voice_session_key, hc, hr, _save_session_counter, hw]
  · intro fs mem hc hw hr
    rcases hr with hr | hr <;>
      simp [get_voice_session_key, hc, hr, _save_session_counter, hw]
  · intro fs mem hw
    rcases hr : fs.read with n | _ | _ | _ <;>
      simp [bump_voice_session, hr, _save_session_counter, hw]
  · intro fs mem hw hr
    rcases hread : fs.read with n | _ | _ | _
    · exact ⟨n, by simp [bump_voice_session, hread, _save_session_counter, hw]⟩
    · exact ⟨6, by simp [bump_voice_session, hread, _save_session_counter, hw]⟩
    · exact ⟨6, by simp [bump_voice_session, hread, _save_session_counter, hw]⟩
    · exact absurd hread hr
  · intro fs mem hr
    simp [bump_voice_session, hr]

/-- Witness for C9: the amended characterisation at concrete stores — a
    missing file with a working disk recovers with 6; a failing disk makes
    bump raise; a cache hit never fails. -/
theorem C9_session_store_errors_witness :
    get_voice_session_key ⟨ReadResult.notFound, true⟩ ⟨none, 0⟩ =
      Except.ok (6, ⟨some 6, 0⟩) ∧
    bump_voice_session ⟨ReadResult.ok 9, false⟩ ⟨none, 0⟩ = Except.error () ∧
    get_voice_session_key ⟨ReadResult.ioError, false⟩ ⟨some 4, 1⟩ =
      Except.ok (4, ⟨some 4, 1⟩) := by
  refine ⟨?_, ?_, ?_⟩
  · exact C9_session_store_errors.2.2.1 ⟨ReadResult.notFound, true⟩ ⟨none, 0⟩
      rfl rfl (Or.inl rfl)
  · exact C9_session_store_errors.2.2.2.2.1 ⟨ReadResult.ok 9, false⟩ ⟨none, 0⟩ rfl
  · exact C9_session_store_errors.1 ⟨ReadResult.ioError, false⟩ ⟨some 4, 1⟩ 4 rfl

lemma processChunks_allFail (gen : List Char → Option (List Nat))
    (h : ∀ t, gen t = none) :
    ∀ (chunks : List (List Char)) (i : Nat) (fmt : FmtInfo) (dat : List Nat),
      processChunks gen chunks i fmt dat = ChunkLoopResult.finished fmt dat := by
  intro chunks
  induction chunks with
  | nil => intro i fmt dat; rfl
  | cons c rest ih =>
    intro i fmt dat
    by_cases hc : (pstrip c).isEmpty = true
    · simp [processChunks, hc, ih]
    · simp [processChunks, hc, h c, ih]

lemma generate_tts_chunked_allFail (gen : List Char → Option (List Nat))
    (h : ∀ t, gen t = none) (text : List Char) (max_chars : Nat) :
    generate_tts_chunked gen text max_chars = none := by
  unfold generate_tts_chunked
  split
  · exact h text
  · simp only [processChunks_allFail gen h]
    simp [h]

/-- C10 (confirmed): `generate_tts_b64` never propagates an exception:
    its whole body sits in one try/except, so a failed provider lookup, a
    failing `get_info`, or synthesis failures (including every chunk of
    the chunked WAV path) yield `None`, and a success yields the base64
    encoding of the produced bytes — `None` is the only failure signal. -/
theorem C10_tts_b64_never_raises :
    (∀ (lookup : Except Unit TTSProviderM) (text : List Char)
       (voice : Option (List Char)),
      generate_tts_b64 lookup text voice = none ∨
      ∃ bytes, generate_tts_b64 lookup text voice = some (b64encode bytes)) ∧
    (∀ (e : Unit) (text : List Char) (voice : Option (List Char)),
      generate_tts_b64 (Except.error e) text voice = none) ∧
    (∀ (p : TTSProviderM) (text : List Char) (voice : Option (List Char))
       (e : Unit), p.info_format = Except.error e →
      generate_tts_b64 (Except.ok p) text voice = none) ∧
    (∀ (p : TTSProviderM) (text : List Char) (voice : Option (List Char))
       (fmt : List Char), p.info_format = Except.ok fmt →
      (∀ v t, p.generate v t = none) →
      generate_tts_b64 (Except.ok p) text voice = none) := by
  refine ⟨?_, ?_, ?_, ?_⟩
  · intro lookup text voice
    rcases hres : generate_tts_b64 lookup text voice with _ | s
    · left; rfl
    · right
      simp only [generate_tts_b64] at hres
      repeat' split at hres
      all_goals
        first
        | (injection hres with hres; exact ⟨_, by rw [hres]⟩)
        | exact absurd hres (by simp)
  · intro e text voice; rfl
  · intro p text voice e hi
    unfold generate_tts_b64
    simp only [hi]
  · intro p text voice fmt hi hg
    unfold generate_tts_b64
    simp only [hi]
    by_cases hf : fmt = "mp3".toList
    · simp [hf, hg]
    · have hall := generate_tts_chunked_allFail
        (p.generate (match voice with
          | none => "M1".toList
          | some w => if w.isEmpty = true then "M1".toList else w))
        (hg _) text 800
      simp at hall
      simp_all

/-- Witness for C10: the failure conjuncts at concrete providers, plus a
    concrete success evaluating to a base64 string. -/
theorem C10_tts_b64_never_raises_witness :
    generate_tts_b64 (Except.error ()) "hello there".toList none = none ∧
    generate_tts_b64 (Except.ok provAllFail) "hello there".toList none = none ∧
    generate_tts_b64 (Except.ok provOk) "hi".toList none =
      some (b64encode [1, 2]) := by
  refine ⟨?_, ?_, ?_⟩
  · exact C10_tts_b64_never_raises.2.1 () "hello there".toList none
  · exact C10_tts_b64_never_raises.2.2.2 provAllFail "hello there".toList none
      "wav".toList rfl (fun _ _ => rfl)
  · decide

lemma stdWav_take4 (ch sr bps : Nat) (p : List Nat) :
    (stdWav ch sr bps p).take 4 = riffId := rfl

lemma stdWav_drop8_take4 (ch sr bps : Nat) (p : List Nat) :
    ((stdWav ch sr bps p).drop 8).take 4 = waveId := rfl

lemma stdWav_drop12 (ch sr bps : Nat) (p : List Nat) :
    (stdWav ch sr bps p).drop 12 =
      fmtId ++ le32 16 ++ le16 1 ++ le16 ch ++ le32 sr ++
        le32 (sr * ch * (bps / 8)) ++ le16 (ch * (bps / 8)) ++ le16 bps ++
        dataId ++ le32 p.length ++ p := by
  simp [stdWav, riffId, waveId, fmtId, dataId, le32, le16]

lemma stdWav_drop44 (ch sr bps : Nat) (p : List Nat) :
    (stdWav ch sr bps p).drop 44 = p := by
  simp [stdWav, riffId, waveId, fmtId, dataId, le32, le16]

lemma u32at_lenField (a b c d : Nat) (n : Nat) (hn : n < 4294967296)
    (rest : List Nat) :
    u32at ([a, b, c, d] ++ le32 n ++ rest) 4 = n := by
  simp only [u32at, le32, List.cons_append, List.nil_append]
  simp [List.getD]
  omega

lemma scanDataAux_dataChunk (p : List Nat) (hp : p.length < 4294967296)
    (fuel : Nat) :
    scanDataAux (fuel + 1) (dataId ++ le32 p.length ++ p) = p := by
  rcases p with _ | ⟨b, bs⟩
  · simp [scanDataAux, dataId, le32]
  · have hlen : ¬ (dataId ++ le32 (b :: bs).length ++ (b :: bs)).length ≤ 8 := by
      simp [dataId, le32]
    have hsz : u32at (dataId ++ le32 (b :: bs).length ++ (b :: bs)) 4 =
        (b :: bs).length := u32at_lenField 100 97 116 97 (b :: bs).length hp (b :: bs)
    have htake : List.take 4 (dataId ++ le32 (b :: bs).length ++ (b :: bs)) = dataId := rfl
    have hdrop : List.drop 8 (dataId ++ le32 (b :: bs).length ++ (b :: bs)) = b :: bs := rfl
    simp only [scanDataAux, if_neg hlen, if_pos htake, hsz, hdrop, List.take_length]
example (ch sr bps : Nat) (q : List Nat) :
    u32at (fmtId ++ le32 16 ++ le16 1 ++ le16 ch ++ le32 sr ++
      le32 (sr * ch * (bps / 8)) ++ le16 (ch * (bps / 8)) ++ le16 bps ++
      dataId ++ le32 q.length ++ q) 4 = 16 := by
  simp [u32at, fmtId, le32, le16, List.getD]

example (ch sr bps : Nat) (q : List Nat) :
    (fmtId ++ le32 16 ++ le16 1 ++ le16 ch ++ le32 sr ++
      le32 (sr * ch * (bps / 8)) ++ le16 (ch * (bps / 8)) ++ le16 bps ++
      dataId ++ le32 q.length ++ q).drop 24 = dataId ++ le32 q.length ++ q := by
  simp [fmtId, le32, le16]

example (ch sr bps : Nat) (q : List Nat) :
    (fmtId ++ le32 16 ++ le16 1 ++ le16 ch ++ le32 sr ++
      le32 (sr * ch * (bps / 8)) ++ le16 (ch * (bps / 8)) ++ le16 bps ++
      dataId ++ le32 q.length ++ q).take 4 = fmtId := by
  simp [fmtId, le32, le16]

example (ch sr bps : Nat) (q : List Nat) :
    ¬ (fmtId ++ le32 16 ++ le16 1 ++ le16 ch ++ le32 sr ++
      le32 (sr * ch * (bps / 8)) ++ le16 (ch * (bps / 8)) ++ le16 bps ++
      dataId ++ le32 q.length ++ q).length ≤ 8 := by
  simp [fmtId, dataId, le32, le16]

example (ch sr bps : Nat) (q : List Nat) :
    (fmtId ++ le32 16 ++ le16 1 ++ le16 ch ++ le32 sr ++
      le32 (sr * ch * (bps / 8)) ++ le16 (ch * (bps / 8)) ++ le16 bps ++
      dataId ++ le32 q.length ++ q).length = (31 + q.length) + 1 := by
  simp [fmtId, dataId, le32, le16]
  omega

example (ch sr bps : Nat) (q : List Nat) :
    (stdWav ch sr bps q).drop 12 =
      fmtId ++ le32 16 ++ le16 1 ++ le16 ch ++ le32 sr ++
        le32 (sr * ch * (bps / 8)) ++ le16 (ch * (bps / 8)) ++ le16 bps ++
        dataId ++ le32 q.length ++ q := by
  simp [stdWav, fmtId, dataId, riffId, waveId, le32, le16]
lemma parseFmt_std (ch sr bps br ba : Nat) (hch : ch < 65536)
    (hsr : sr < 4294967296) (hbps : bps < 65536) (st : FmtInfo) :
    parseFmt (le16 1 ++ le16 ch ++ le32 sr ++ le32 br ++ le16 ba ++ le16 bps) st =
      (⟨some ch, some sr, some bps⟩, true) := by
  have e1 : ((le16 1 ++ le16 ch ++ le32 sr ++ le32 br ++ le16 ba ++
      le16 bps).drop 2).take 2 = [ch % 256, ch / 256 % 256] := by
    simp [le16, le32]
  have e2 : ((le16 1 ++ le16 ch ++ le32 sr ++ le32 br ++ le16 ba ++
      le16 bps).drop 4).take 4 =
      [sr % 256, sr / 256 % 256, sr / 65536 % 256, sr / 16777216 % 256] := by
    simp [le16, le32]
  have e3 : ((le16 1 ++ le16 ch ++ le32 sr ++ le32 br ++ le16 ba ++
      le16 bps).drop 14).take 2 = [bps % 256, bps / 256 % 256] := by
    simp [le16, le32]
  have hch' : ch % 256 % 256 + 256 * (ch / 256 % 256 % 256) = ch := by omega
  have hsr' : sr % 256 % 256 + 256 * (sr / 256 % 256 % 256) +
      65536 * (sr / 65536 % 256 % 256) + 16777216 * (sr / 16777216 % 256 % 256) = sr := by
    omega
  have hbps' : bps % 256 % 256 + 256 * (bps / 256 % 256 % 256) = bps := by omega
  simp only [parseFmt, e1, e2, e3, u16le, u32le, hch', hsr', hbps']
lemma scanFirstAux_fmtStep (fuel : Nat) (l : List Nat) (st st1 : FmtInfo)
    (hlen : ¬ l.length ≤ 8) (hcid : l.take 4 = fmtId)
    (hparse : parseFmt ((l.drop 8).take (u32at l 4)) st = (st1, true)) :
    scanFirstAux (fuel + 1) l st = scanFirstAux fuel (l.drop (8 + u32at l 4)) st1 := by
  simp only [scanFirstAux, if_neg hlen, if_pos hcid, hparse]

lemma scanFirstAux_dataStep (fuel : Nat) (l : List Nat) (st : FmtInfo)
    (hlen : ¬ l.length ≤ 8) (hcid1 : ¬ l.take 4 = fmtId)
    (hcid2 : l.take 4 = dataId) :
    scanFirstAux (fuel + 1) l st = (st, (l.drop 8).take (u32at l 4), true) := by
  simp only [scanFirstAux, if_neg hlen, if_neg hcid1, if_pos hcid2]

lemma scanFirstAux_std (fuel ch sr bps : Nat) (hch : ch < 65536)
    (hsr : sr < 4294967296) (hbps : bps < 65536)
    (q : List Nat) (hq : q.length < 4294967296) (hqne : q ≠ []) :
    scanFirstAux (fuel + 2)
      (fmtId ++ le32 16 ++ le16 1 ++ le16 ch ++ le32 sr ++
        le32 (sr * ch * (bps / 8)) ++ le16 (ch * (bps / 8)) ++ le16 bps ++
        dataId ++ le32 q.length ++ q) ⟨none, none, none⟩ =
      (⟨some ch, some sr, some bps⟩, q, true) := by
  have hlen1 : ¬ (fmtId ++ le32 16 ++ le16 1 ++ le16 ch ++ le32 sr ++
      le32 (sr * ch * (bps / 8)) ++ le16 (ch * (bps / 8)) ++ le16 bps ++
      dataId ++ le32 q.length ++ q).length ≤ 8 := by
    simp [fmtId, dataId, le32, le16]
  have hcid1 : (fmtId ++ le32 16 ++ le16 1 ++ le16 ch ++ le32 sr ++
      le32 (sr * ch * (bps / 8)) ++ le16 (ch * (bps / 8)) ++ le16 bps ++
      dataId ++ le32 q.length ++ q).take 4 = fmtId := by
    simp [fmtId, le32, le16]
  have hu1 : u32at (fmtId ++ le32 16 ++ le16 1 ++ le16 ch ++ le32 sr ++
      le32 (sr * ch * (bps / 8)) ++ le16 (ch * (bps / 8)) ++ le16 bps ++
      dataId ++ le32 q.length ++ q) 4 = 16 := by
    simp [u32at, fmtId, le32, le16, List.getD]
  have hbody : (((fmtId ++ le32 16 ++ le16 1 ++ le16 ch ++ le32 sr ++
      le32 (sr * ch * (bps / 8)) ++ le16 (ch * (bps / 8)) ++ le16 bps ++
      dataId ++ le32 q.length ++ q).drop 8).take 16) =
      le16 1 ++ le16 ch ++ le32 sr ++ le32 (sr * ch * (bps / 8)) ++
        le16 (ch * (bps / 8)) ++ le16 bps := by
    simp [fmtId, dataId, le32, le16]
  have hparse : parseFmt (((fmtId ++ le32 16 ++ le16 1 ++ le16 ch ++ le32 sr ++
      le32 (sr * ch * (bps / 8)) ++ le16 (ch * (bps / 8)) ++ le16 bps ++
      dataId ++ le32 q.length ++ q).drop 8).take
      (u32at (fmtId ++ le32 16 ++ le16 1 ++ le16 ch ++ le32 sr ++
        le32 (sr * ch * (bps / 8)) ++ le16 (ch * (bps / 8)) ++ le16 bps ++
        dataId ++ le32 q.length ++ q) 4) ) ⟨none, none, none⟩ =
      (⟨some ch, some sr, some bps⟩, true) := by
    rw [hu1, hbody]
    exact parseFmt_std ch sr bps (sr * ch * (bps / 8)) (ch * (bps / 8)) hch hsr hbps _
  rw [scanFirstAux_fmtStep (fuel + 1) _ _ _ hlen1 hcid1 hparse]
  rw [hu1]
  have hdrop : (fmtId ++ le32 16 ++ le16 1 ++ le16 ch ++ le32 sr ++
      le32 (sr * ch * (bps / 8)) ++ le16 (ch * (bps / 8)) ++ le16 bps ++
      dataId ++ le32 q.length ++ q).drop (8 + 16) = dataId ++ le32 q.length ++ q := by
    simp [fmtId, le32, le16]
  rw [hdrop]
  have hlen2 : ¬ (dataId ++ le32 q.length ++ q).length ≤ 8 := by
    simp [dataId, le32]
    intro h
    exact hqne h
  have hcidd : (dataId ++ le32 q.length ++ q).take 4 = dataId := by
    simp [dataId, le32]
  have hcidf : ¬ (dataId ++ le32 q.length ++ q).take 4 = fmtId := by
    rw [hcidd]; decide
  rw [scanFirstAux_dataStep fuel _ _ hlen2 hcidf hcidd]
  have hu2 : u32at (dataId ++ le32 q.length ++ q) 4 = q.length :=
    u32at_lenField 100 97 116 97 q.length hq q
  rw [hu2]
  have hdrop2 : (dataId ++ le32 q.length ++ q).drop 8 = q := by
    simp [dataId, le32]
  rw [hdrop2, List.take_length]
lemma scanDataAux_step (fuel : Nat) (l : List Nat) (hlen : ¬ l.length ≤ 8)
    (hcid : ¬ l.take 4 = dataId) :
    scanDataAux (fuel + 1) l = scanDataAux fuel (l.drop (8 + u32at l 4)) := by
  simp only [scanDataAux, if_neg hlen, if_neg hcid]

lemma scanFirst_std (ch sr bps : Nat) (hch : ch < 65536)
    (hsr : sr < 4294967296) (hbps : bps < 65536)
    (q : List Nat) (hq : q.length < 4294967296) (hqne : q ≠ []) :
    scanFirst ((stdWav ch sr bps q).drop 12) ⟨none, none, none⟩ =
      (⟨some ch, some sr, some bps⟩, q, true) := by
  rw [scanFirst, stdWav_drop12]
  rw [show (fmtId ++ le32 16 ++ le16 1 ++ le16 ch ++ le32 sr ++
      le32 (sr * ch * (bps / 8)) ++ le16 (ch * (bps / 8)) ++ le16 bps ++
      dataId ++ le32 q.length ++ q).length = (30 + q.length) + 2 from by
    simp [fmtId, dataId, le32, le16]
    omega]
  exact scanFirstAux_std (30 + q.length) ch sr bps hch hsr hbps q hq hqne

lemma scanData_std (ch sr bps : Nat) (q : List Nat) (hq : q.length < 4294967296) :
    scanData ((stdWav ch sr bps q).drop 12) = q := by
  rw [scanData, stdWav_drop12]
  rw [show (fmtId ++ le32 16 ++ le16 1 ++ le16 ch ++ le32 sr ++
      le32 (sr * ch * (bps / 8)) ++ le16 (ch * (bps / 8)) ++ le16 bps ++
      dataId ++ le32 q.length ++ q).length = (31 + q.length) + 1 from by
    simp [fmtId, dataId, le32, le16]
    omega]
  rw [scanDataAux_step]
  · rw [show u32at (fmtId ++ le32 16 ++ le16 1 ++ le16 ch ++ le32 sr ++
        le32 (sr * ch * (bps / 8)) ++ le16 (ch * (bps / 8)) ++ le16 bps ++
        dataId ++ le32 q.length ++ q) 4 = 16 from by
      simp [u32at, fmtId, le32, le16, List.getD]]
    rw [show (fmtId ++ le32 16 ++ le16 1 ++ le16 ch ++ le32 sr ++
        le32 (sr * ch * (bps / 8)) ++ le16 (ch * (bps / 8)) ++ le16 bps ++
        dataId ++ le32 q.length ++ q).drop (8 + 16) =
        dataId ++ le32 q.length ++ q from by simp [fmtId, le32, le16]]
    rw [show 31 + q.length = (30 + q.length) + 1 from by omega]
    exact scanDataAux_dataChunk q hq _
  · simp [fmtId, dataId, le32, le16]
  · rw [show (fmtId ++ le32 16 ++ le16 1 ++ le16 ch ++ le32 sr ++
        le32 (sr * ch * (bps / 8)) ++ le16 (ch * (bps / 8)) ++ le16 bps ++
        dataId ++ le32 q.length ++ q).take 4 = fmtId from by simp [fmtId, le32, le16]]
    decide
lemma processChunks_tail (gen : List Char → Option (List Nat)) :
    ∀ (chunks : List (List Char)), ∀ i : Nat, i ≠ 0 →
      ∀ (fmt : FmtInfo) (dat : List Nat),
      (∀ c ∈ chunks, gen c = none ∨
        ∃ a b e q, gen c = some (stdWav a b e q) ∧ q.length < 4294967296) →
      processChunks gen chunks i fmt dat =
        ChunkLoopResult.finished fmt (dat ++ tailPayloads gen chunks) := by
  intro chunks
  induction chunks with
  | nil => intro i hi fmt dat h; simp [processChunks, tailPayloads]
  | cons c rest ih =>
    intro i hi fmt dat h
    have hc := h c (List.mem_cons_self c rest)
    have hrest : ∀ x ∈ rest, gen x = none ∨
        ∃ a b e q, gen x = some (stdWav a b e q) ∧ q.length < 4294967296 :=
      fun x hx => h x (List.mem_cons_of_mem c hx)
    by_cases hemp : (pstrip c).isEmpty = true
    · simp only [processChunks, if_pos hemp]
      rw [ih (i + 1) (by omega) fmt dat hrest]
      simp [tailPayloads, hemp]
    · rcases hc with hnone | ⟨a, b, e, q, hsome, hq⟩
      · simp only [processChunks, if_neg hemp, hnone]
        rw [ih (i + 1) (by omega) fmt dat hrest]
        simp [tailPayloads, hemp, hnone]
      · simp only [processChunks, if_neg hemp, hsome]
        rw [if_neg hi]
        rw [if_pos (show (stdWav a b e q).take 4 = riffId from rfl)]
        rw [ih (i + 1) (by omega) fmt (dat ++ scanData ((stdWav a b e q).drop 12)) hrest]
        rw [scanData_std a b e q hq]
        simp [tailPayloads, hemp, hsome, stdWav_drop44, List.append_assoc]
/-- C6: for chunked WAV synthesis of an over-cap text whose chunk 0 is
    non-blank and synthesizes to a standard RIFF/WAVE container, the output
    is a rebuilt WAV with the captured format parameters whose payload is
    chunk 0 data followed by the data payloads of the later successful
    chunks, in order. -/
theorem C6_wav_rebuild
    (gen : List Char → Option (List Nat)) (text : List Char) (max_chars : Nat)
    (c0 : List Char) (rest : List (List Char)) (ch sr bps : Nat) (p0 : List Nat)
    (hlong : ¬ text.length ≤ max_chars)
    (hpack : packChunks max_chars (pySplitSentences text) = c0 :: rest)
    (hc0 : ¬ (pstrip c0).isEmpty = true)
    (hgen0 : gen c0 = some (stdWav ch sr bps p0))
    (hch : ch < 65536) (hsr : sr < 4294967296) (hbps : bps < 65536)
    (hp0 : p0.length < 4294967296) (hp0ne : p0 ≠ [])
    (htail : ∀ c ∈ rest, gen c = none ∨
      ∃ a b e q, gen c = some (stdWav a b e q) ∧ q.length < 4294967296) :
    generate_tts_chunked gen text max_chars =
      some (stdWav ch sr bps (p0 ++ tailPayloads gen rest)) := by
  have hstep : processChunks gen (c0 :: rest) 0 ⟨none, none, none⟩ [] =
      ChunkLoopResult.finished ⟨some ch, some sr, some bps⟩
        (p0 ++ tailPayloads gen rest) := by
    have h1 := processChunks_tail gen rest 1 (by omega)
      (⟨some ch, some sr, some bps⟩ : FmtInfo) p0 htail
    simp only [processChunks, if_neg hc0, hgen0]
    rw [if_pos (show (stdWav ch sr bps p0).take 4 = riffId ∧
      ((stdWav ch sr bps p0).drop 8).take 4 = waveId from ⟨rfl, rfl⟩)]
    rw [scanFirst_std ch sr bps hch hsr hbps p0 hp0 hp0ne]
    simpa using h1
  simp only [generate_tts_chunked, if_neg hlong, hpack, hstep]
  have hne : (p0 ++ tailPayloads gen rest).isEmpty = false := by
    rcases p0 with _ | ⟨x, xs⟩
    · exact absurd rfl hp0ne
    · rfl
  simp [hne, stdWav]
/-- C6 counterexample: the text exceeds the cap and splits into two chunks;
    chunk 0 raises while chunk 1 — the first successful chunk — is a valid
    RIFF/WAVE container, yet the output is not a rebuilt WAV at all: the
    retry with the truncated text raises and the call returns `none`. -/
theorem C6_counterexample :
    5 < textC6cex.length ∧
    packChunks 5 (pySplitSentences textC6cex) = ["a. b.".toList, "c.".toList] ∧
    genC6cex ("a. b.".toList) = none ∧
    genC6cex ("c.".toList) = some (stdWav 1 8000 16 [1, 2, 3, 4]) ∧
    generate_tts_chunked genC6cex textC6cex 5 = none := by
  decide

theorem C6_wav_rebuild_witness :
    (¬ ("aa. bb.".toList : List Char).length ≤ 5) ∧
    generate_tts_chunked genC6wit textC6wit 5 = some wavC6 := by
  refine ⟨by decide, ?_⟩
  have h := C6_wav_rebuild genC6wit textC6wit 5 ("aa.".toList) ["bb.".toList]
    1 8000 16 [1, 2, 3, 4] (by decide) (by decide) (by decide) (by decide)
    (by decide) (by decide) (by decide) (by decide) (by decide)
    (by intro c hc
        rw [List.mem_singleton] at hc
        subst hc
        exact Or.inl (by decide))
  simpa [tailPayloads, genC6wit, wavC6] using h
/-- C8 counterexample: normalize "*a\nb*" gives "*a b*" (the collapse
    stage runs after markdown stripping), and a second application strips
    the now-matchable emphasis pair to "a b", so normalize is not
    idempotent. -/
theorem C8_counterexample :
    SpeechNormalizer.normalize (SpeechNormalizer.normalize x8 none) none ≠
      SpeechNormalizer.normalize x8 none := by
  decide

/-- C8: normalize is idempotent on its normal forms — outputs fixed by the
    markdown/URL/emoji stripping stages, the whitespace-collapse stage and
    the final trim, and no longer than the 800-character cap; the
    counterexample shows the cap condition is not automatic, because the
    hard-cut ellipsis path can return 802 characters. -/
theorem C8_normalize_idempotent (x : List Char) (pid pid2 : Option String)
    (hstrip : stripStages (SpeechNormalizer.normalize x pid) =
      SpeechNormalizer.normalize x pid)
    (hcoll : collapseStages (SpeechNormalizer.normalize x pid) =
      SpeechNormalizer.normalize x pid)
    (htrim : pstrip (SpeechNormalizer.normalize x pid) =
      SpeechNormalizer.normalize x pid)
    (hlen : (SpeechNormalizer.normalize x pid).length ≤ 800) :
    SpeechNormalizer.normalize (SpeechNormalizer.normalize x pid) pid2 =
      SpeechNormalizer.normalize x pid := by
  by_cases hy : SpeechNormalizer.normalize x pid = []
  · rw [hy]
    simp [SpeechNormalizer.normalize]
  · rw [SpeechNormalizer.normalize, if_neg hy, hstrip, hcoll, htrim, truncStage,
      if_neg (by omega)]

theorem C8_normalize_idempotent_witness :
    SpeechNormalizer.normalize
      (SpeechNormalizer.normalize "Hello world.".toList none) none =
      SpeechNormalizer.normalize "Hello world.".toList none :=
  C8_normalize_idempotent "Hello world.".toList none none (by decide) (by decide)
    (by decide) (by decide)
